import Mathlib

set_option maxHeartbeats 1000000

/-- Thrift IDL type tags, numerically coded as in the `TType` enum of
`src/lib/ts/thrift.ts`; note the aliases `BYTE = I08 = 3` and
`STRING = UTF7 = 11`, while `UTF8 = 16` and `UTF16 = 17` are distinct codes. -/
abbrev TType := Nat

namespace TType

abbrev STOP   : TType := 0
abbrev VOID   : TType := 1
abbrev BOOL   : TType := 2
abbrev BYTE   : TType := 3
abbrev I08    : TType := 3
abbrev DOUBLE : TType := 4
abbrev I16    : TType := 6
abbrev I32    : TType := 8
abbrev I64    : TType := 10
abbrev STRING : TType := 11
abbrev UTF7   : TType := 11
abbrev STRUCT : TType := 12
abbrev MAP    : TType := 13
abbrev SET    : TType := 14
abbrev LIST   : TType := 15
abbrev UTF8   : TType := 16
abbrev UTF16  : TType := 17

end TType

/- Protocol exception kind codes from the `TProtocolExceptionType` enum. -/
namespace TProtocolExceptionType

abbrev UNKNOWN         : Nat := 0
abbrev INVALID_DATA    : Nat := 1
abbrev NEGATIVE_SIZE   : Nat := 2
abbrev SIZE_LIMIT      : Nat := 3
abbrev NOT_IMPLEMENTED : Nat := 5

end TProtocolExceptionType

/-- A thrown `TProtocolException`: a kind code plus a human-readable message. -/
structure TProtocolException where
  code : Nat
  message : String
deriving DecidableEq, Repr

/-- Errors that deserialization can surface: a thrown `TProtocolException`, or a
plain JavaScript `TypeError` raised by calling an array method (`shift`) on a
non-array value. -/
inductive JSError where
  | protocolError (e : TProtocolException)
  | typeError (msg : String)
deriving DecidableEq, Repr

/-- JavaScript numbers as far as the codec inspects them: NaN or an integer.
No claim depends on fractional doubles, so finite values are modelled as
integers; the `isNaN` check in `serializeValue` is preserved via `nan`. -/
inductive JSNum where
  | nan
  | int (n : Int)
deriving DecidableEq, Repr

/-- A primitive payload held by a `TBase` scalar: boolean, number or string. -/
inductive Prim where
  | pb (b : Bool)
  | pn (n : JSNum)
  | ps (s : String)
deriving DecidableEq, Repr

/-- JSON-compatible JavaScript values: the `any` universe that
`serializeValue` produces and `deserializeValue` consumes. `jsUndefined` models
`undefined` (property misses); JSON.parse itself never yields it. Objects are
insertion-ordered key/value lists with unique keys. -/
inductive JValue where
  | null
  | jsUndefined
  | bool (b : Bool)
  | num (n : JSNum)
  | str (s : String)
  | arr (xs : List JValue)
  | obj (kvs : List (String × JValue))
deriving Repr

/-- Tagged values: the closed set of concrete `TValue` implementations from the
source (`TBase`, `TList`, `TMap`, `TSet`, `TStruct`).  A struct's fields are
modelled as the underlying JavaScript object: an insertion-ordered list of
(string key, field) pairs with unique keys, where a field is its declared type
tag (`TField.fieldType`) paired with the carried value (`TField.value`). -/
inductive TValue where
  | base (valueType : TType) (value : Option Prim)
  | list (itemType : TType) (items : List TValue)
  | map (keyType : TType) (itemType : TType) (items : List (TValue × TValue))
  | set (itemType : TType) (items : List TValue)
  | struct (fields : List (String × TType × TValue))
deriving Repr

/-- A struct field (`TField`): declared type tag plus the value it carries. -/
abbrev TField := TType × TValue

/-- The `fieldType` component of a `TField`. -/
def TField.fieldType (f : TField) : TType := f.1

/-- The `value` component of a `TField`. -/
def TField.value (f : TField) : TValue := f.2

/-- The `valueType` reported by each concrete variant: `TBase` reports its
constructor argument, the containers report their fixed tags. -/
def TValue.valueType : TValue → TType
  | .base t _ => t
  | .list _ _ => TType.LIST
  | .map _ _ _ => TType.MAP
  | .set _ _ => TType.SET
  | .struct _ => TType.STRUCT

/- JavaScript semantics helpers.  These model the runtime behaviour the
TypeScript source relies on implicitly: truthiness, loose equality and
relational comparison against numbers, property access, and the string
conversions used for object property names and error messages. -/

/-- The `isNull` helper of the source: `value === undefined || value === null`. -/
def isNullish : JValue → Bool
  | .null => true
  | .jsUndefined => true
  | _ => false

/-- JavaScript truthiness: false for `undefined`, `null`, `false`, `0`, `NaN`
and the empty string; true for every other value (all objects and arrays). -/
def truthy : JValue → Bool
  | .null => false
  | .jsUndefined => false
  | .bool b => b
  | .num .nan => false
  | .num (.int n) => n != 0
  | .str s => s != ""
  | .arr _ => true
  | .obj _ => true

/-- Decimal digits of a string as a natural number, requiring every character
to be a digit and at least one digit; `none` otherwise. -/
def decDigits (cs : List Char) : Option Nat :=
  match cs with
  | [] => none
  | _ =>
    let rec go (acc : Nat) : List Char → Option Nat
      | [] => some acc
      | c :: rest => if c.isDigit then go (acc * 10 + (c.toNat - 48)) rest else none
    go 0 cs

/-- ASCII whitespace ignored by the JavaScript string-to-number conversions. -/
def jsWhitespace (c : Char) : Bool :=
  c = ' ' || c = '\t' || c = '\n' || c = '\r'

/-- Floor of the base-2 logarithm of a positive natural number (0 for 0 and 1),
computed with an explicit fuel bound so that it reduces definitionally. -/
def natLog2Go (fuel : Nat) (n : Nat) : Nat :=
  match fuel with
  | 0 => 0
  | fuel + 1 => if 2 ≤ n then natLog2Go fuel (n / 2) + 1 else 0

/-- The floor of log2 n (0 for n = 0). -/
def natLog2 (n : Nat) : Nat := natLog2Go n n

/-- An IEEE-754 double as far as the codec's comparisons observe it: NaN, a
signed infinity, or an exactly-represented finite value `m * 2^e` (a dyadic
rational; every finite double is one). -/
inductive JSDouble where
  | nan
  | inf (neg : Bool)
  | fin (m : Int) (e : Int)
deriving DecidableEq, Repr

/-- Whether the finite double `m * 2^e` equals the integer `n`. -/
def dyadicEqInt (m e n : Int) : Bool :=
  if 0 ≤ e then m * 2 ^ e.toNat == n else m == n * 2 ^ (-e).toNat

/-- Whether the finite double `m * 2^e` is below the integer `n`. -/
def dyadicLtInt (m e n : Int) : Bool :=
  if 0 ≤ e then decide (m * 2 ^ e.toNat < n) else decide (m < n * 2 ^ (-e).toNat)

/-- Whether `2^e ≤ a / b` for positive naturals `a`, `b`, by cross-multiplying. -/
def pow2LE (a b : Nat) (e : Int) : Bool :=
  if 0 ≤ e then decide (b * 2 ^ e.toNat ≤ a) else decide (b ≤ a * 2 ^ (-e).toNat)

/-- Floor of log2 (a / b) for positive `a`, `b`: estimated from the integer
logarithms of numerator and denominator (correct to within one) and fixed up by
direct comparison. -/
def ratFloorLog2 (a b : Nat) : Int :=
  let e0 : Int := (natLog2 a : Int) - (natLog2 b : Int)
  if pow2LE a b (e0 + 1) then e0 + 1
  else if pow2LE a b e0 then e0
  else e0 - 1

/-- Round the positive rational `a / b` to the nearest IEEE-754 double (ties to
even), as `some (m, e)` with value `m * 2^e`, or `none` on overflow to
infinity.  The scale is chosen so normal values keep a 53-bit significand and
subnormal values are rounded at `2^-1074`; overflow is detected by the bit
length of the rounded significand. -/
def roundPosRat (a b : Nat) : Option (Nat × Int) :=
  let e := ratFloorLog2 a b
  let k : Int := if e < -1022 then 1074 else 52 - e
  let n2 := if 0 ≤ k then a * 2 ^ k.toNat else a
  let d2 := if 0 ≤ k then b else b * 2 ^ (-k).toNat
  let q := n2 / d2
  let r := n2 % d2
  let m := if d2 < 2 * r ∨ (2 * r = d2 ∧ q % 2 = 1) then q + 1 else q
  if m = 0 then some (0, 0)
  else if (natLog2 m : Int) < 1024 + k then some (m, -k) else none

/-- Attach a sign to a rounding result (overflow becomes a signed infinity). -/
def signedDouble (neg : Bool) : Option (Nat × Int) → JSDouble
  | none => .inf neg
  | some (m, e) => .fin (if neg then -(m : Int) else (m : Int)) e

/-- Round the signed exact decimal `mant * 10^exp` to a double. -/
def roundDecToDouble (neg : Bool) (mant : Nat) (exp : Int) : JSDouble :=
  if mant = 0 then .fin 0 0
  else if 0 ≤ exp then signedDouble neg (roundPosRat (mant * 10 ^ exp.toNat) 1)
  else signedDouble neg (roundPosRat mant (10 ^ (-exp).toNat))

/-- Split a character list at the first character satisfying `p`; `none` when
no character does. -/
def splitAtChar (p : Char → Bool) : List Char → Option (List Char × List Char)
  | [] => none
  | c :: rest =>
    if p c then some ([], rest)
    else
      match splitAtChar p rest with
      | some (a, b) => some (c :: a, b)
      | none => none

/-- Value of a list of decimal digit characters (no validation; helper for the
mantissa grammar below). -/
def digitsVal (cs : List Char) : Nat :=
  cs.foldl (fun acc c => acc * 10 + (c.toNat - 48)) 0

/-- The decimal mantissa of `StrUnsignedDecimalLiteral`: `digits`,
`digits . digits?` or `. digits`, with at least one digit overall.  Returns the
digits' combined value together with the number of fraction digits. -/
def mantissaVal (cs : List Char) : Option (Nat × Nat) :=
  match splitAtChar (fun c => c = '.') cs with
  | none =>
    match decDigits cs with
    | some n => some (n, 0)
    | none => none
  | some (ip, fp) =>
    if ip.all Char.isDigit && fp.all Char.isDigit && !(ip.isEmpty && fp.isEmpty)
        && !(fp.any (fun c => c = '.')) then
      some (digitsVal ip * 10 ^ fp.length + digitsVal fp, fp.length)
    else none

/-- The exponent part of a string numeric literal: an optional sign followed by
decimal digits. -/
def expVal : List Char → Option Int
  | '-' :: ds => (decDigits ds).map (fun n => -(n : Int))
  | '+' :: ds => (decDigits ds).map (fun n => (n : Int))
  | ds => (decDigits ds).map (fun n => (n : Int))

/-- An unsigned `StrDecimalLiteral` as an exact decimal (mantissa value and
decimal exponent); `none` when the text is not in the grammar. -/
def decLiteral (cs : List Char) : Option (Nat × Int) :=
  match splitAtChar (fun c => c = 'e' || c = 'E') cs with
  | none => (mantissaVal cs).map (fun p => (p.1, -(p.2 : Int)))
  | some (ms, es) => do
    let p ← mantissaVal ms
    let ex ← expVal es
    some (p.1, ex - (p.2 : Int))

/-- Value of a hexadecimal digit character, `none` for any other character. -/
def hexVal (c : Char) : Option Nat :=
  if c.isDigit then some (c.toNat - 48)
  else if 'a' ≤ c && c ≤ 'f' then some (c.toNat - 87)
  else if 'A' ≤ c && c ≤ 'F' then some (c.toNat - 55)
  else none

/-- Accumulate base-`radix` digits; fails on any non-digit character. -/
def radixDigitsGo (radix acc : Nat) : List Char → Option Nat
  | [] => some acc
  | c :: rest =>
    match hexVal c with
    | some d => if d < radix then radixDigitsGo radix (acc * radix + d) rest else none
    | none => none

/-- Value of a whole character list as base-`radix` digits, requiring at least
one digit. -/
def radixDigits (radix : Nat) (cs : List Char) : Option Nat :=
  match cs with
  | [] => none
  | _ => radixDigitsGo radix 0 cs

/-- A signed `StrDecimalLiteral` (including `Infinity`) rounded to a double;
NaN when the text does not match the grammar. -/
def signedDecToDouble (cs : List Char) : JSDouble :=
  let (neg, rest) :=
    match cs with
    | '-' :: r => (true, r)
    | '+' :: r => (false, r)
    | r => (false, r)
  if rest = ['I', 'n', 'f', 'i', 'n', 'i', 't', 'y'] then .inf neg
  else
    match decLiteral rest with
    | some (mant, exp) => roundDecToDouble neg mant exp
    | none => .nan

/-- JavaScript `ToNumber` on a string (the conversion used by loose equality
and relational comparison): leading/trailing whitespace is ignored, the empty
string converts to `0`, then the whole remaining text must match the string
numeric grammar — a signed decimal literal with optional fraction and exponent,
a signed `Infinity`, or an unsigned `0x`/`0b`/`0o` integer literal — and the
exact value is rounded to the nearest double; any other text is NaN. -/
def strToNumber (s : String) : JSDouble :=
  let t := ((s.toList.dropWhile jsWhitespace).reverse.dropWhile jsWhitespace).reverse
  match t with
  | [] => .fin 0 0
  | '0' :: c :: ds =>
    if c = 'x' || c = 'X' then
      match radixDigits 16 ds with
      | some n => roundDecToDouble false n 0
      | none => .nan
    else if c = 'b' || c = 'B' then
      match radixDigits 2 ds with
      | some n => roundDecToDouble false n 0
      | none => .nan
    else if c = 'o' || c = 'O' then
      match radixDigits 8 ds with
      | some n => roundDecToDouble false n 0
      | none => .nan
    else signedDecToDouble ('0' :: c :: ds)
  | cs => signedDecToDouble cs

/-- The result of `parseInt`: NaN, a signed infinity (overflow of a huge digit
string), or a finite double, which for `parseInt` is always an integer. -/
inductive JSParsedInt where
  | nan
  | inf (neg : Bool)
  | fin (n : Int)
deriving DecidableEq, Repr

/-- Round an exact natural number to the nearest double (ties to even):
numbers up to `2^53` are exact; larger ones are rounded at their 53rd
significant bit; `none` on overflow to infinity. -/
def roundIntToDouble (n : Nat) : Option Nat :=
  if n ≤ 2 ^ 53 then some n
  else
    let e := natLog2 n - 52
    let q := n / 2 ^ e
    let r := n % 2 ^ e
    let m := if 2 ^ e < 2 * r ∨ (2 * r = 2 ^ e ∧ q % 2 = 1) then q + 1 else q
    if natLog2 m + e < 1024 then some (m * 2 ^ e) else none

/-- Accumulate the longest prefix of base-`radix` digits (the `parseInt`
digit scan, which ignores trailing characters); `none` when no digit is
found at all. -/
def parsePrefixDigits (radix acc : Nat) (found : Bool) : List Char → Option Nat
  | [] => if found then some acc else none
  | c :: rest =>
    match hexVal c with
    | some d =>
      if d < radix then parsePrefixDigits radix (acc * radix + d) true rest
      else if found then some acc else none
    | none => if found then some acc else none

/-- JavaScript `parseInt` with an unspecified radix, as used on struct field
ids: skip leading whitespace, read an optional sign, switch to base 16 on a
`0x`/`0X` prefix, then read as many digits as possible, ignoring trailing
characters; NaN when no digit is found.  The exact integer is rounded to the
nearest double (so digit strings beyond 2^53 lose precision, and astronomical
ones overflow to a signed infinity). -/
def jsParseInt (s : String) : JSParsedInt :=
  let cs := s.toList.dropWhile jsWhitespace
  let (neg, rest) :=
    match cs with
    | '-' :: r => (true, r)
    | '+' :: r => (false, r)
    | r => (false, r)
  let (radix, rest2) :=
    match rest with
    | '0' :: c :: r => if c = 'x' || c = 'X' then (16, r) else (10, '0' :: c :: r)
    | r => (10, r)
  match parsePrefixDigits radix 0 false rest2 with
  | none => .nan
  | some n =>
    match roundIntToDouble n with
    | some v => .fin (if neg then -(v : Int) else (v : Int))
    | none => .inf neg

/-- JavaScript `String()` of a `parseInt` result, as used for the decoder's
`fields[parseInt(id)]` property key: `"NaN"`, a signed `"Infinity"`, or the
decimal expansion of the integer.  (For magnitudes below 2^53 — the only ids
the well-formedness predicate below admits — the decimal expansion is exactly
what JavaScript prints; far larger integral doubles may print in shortened or
exponential form, which is not modelled.) -/
def parseIntToString : JSParsedInt → String
  | .nan => "NaN"
  | .inf neg => if neg then "-Infinity" else "Infinity"
  | .fin n => toString n

/-- JavaScript `String()` of a number: `"NaN"` for NaN, the signed decimal
representation for (model) integers. -/
def numToString : JSNum → String
  | .nan => "NaN"
  | .int n => toString n

/-- JavaScript `String()` of a primitive payload (used in error messages
built with `+` concatenation). -/
def primToString : Prim → String
  | .pb b => if b then "true" else "false"
  | .pn n => numToString n
  | .ps s => s

/-- Whether a string is an array-index property key (the canonical decimal
form of a natural number below 2^32 - 1), returning its numeric value.
JavaScript enumerates such keys of an object first, in ascending numeric
order. -/
def arrayIndexKey (s : String) : Option Nat :=
  match decDigits s.toList with
  | some n => if toString n == s && n < 4294967295 then some n else none
  | none => none

/-- Insert one tagged entry into a list sorted by ascending numeric tag. -/
def insertIdxKey {α : Type} (x : Nat × (String × α)) :
    List (Nat × (String × α)) → List (Nat × (String × α))
  | [] => [x]
  | y :: ys => if x.1 < y.1 then x :: y :: ys else y :: insertIdxKey x ys

/-- Insertion sort by ascending numeric tag. -/
def sortIdxKeys {α : Type} : List (Nat × (String × α)) → List (Nat × (String × α))
  | [] => []
  | x :: xs => insertIdxKey x (sortIdxKeys xs)

/-- The array-index-keyed properties of an object, tagged with their numeric
values, in insertion order. -/
def idxOf {α : Type} (kvs : List (String × α)) : List (Nat × (String × α)) :=
  kvs.filterMap (fun p =>
    match arrayIndexKey p.1 with
    | some n => some (n, p)
    | none => none)

/-- The properties of an object whose keys are not array indices, in insertion
order. -/
def nonIdxOf {α : Type} (kvs : List (String × α)) : List (String × α) :=
  kvs.filter (fun p => (arrayIndexKey p.1).isNone)

/-- JavaScript own-property enumeration order (the order of `for..in` and
`JSON.stringify` over the codec's objects): array-index keys first in
ascending numeric order, then the remaining string keys in insertion order. -/
def jsOrderKeys {α : Type} (kvs : List (String × α)) : List (String × α) :=
  (sortIdxKeys (idxOf kvs)).map Prod.snd ++ nonIdxOf kvs

/-- No key of the list is an array index. -/
def noIndexKeys (ks : List String) : Bool :=
  ks.all (fun k => (arrayIndexKey k).isNone)

/-- The keys consist of array-index keys in strictly ascending numeric order
(each above `prev` when given), followed by non-index keys only. -/
def ascIndexFrom (prev : Option Nat) (ks : List String) : Bool :=
  match ks with
  | [] => true
  | k :: rest =>
    match arrayIndexKey k with
    | some n =>
      (match prev with
       | none => true
       | some p => decide (p < n)) && ascIndexFrom (some n) rest
    | none => noIndexKeys (k :: rest)

/-- A key list already in JavaScript own-property enumeration order. -/
def jsOrderedKeys (ks : List String) : Bool := ascIndexFrom none ks

theorem insertIdxKey_head {α : Type} (x : Nat × (String × α))
    (ys : List (Nat × (String × α))) (h : ∀ q ∈ ys, x.1 < q.1) :
    insertIdxKey x ys = x :: ys := by
  cases ys with
  | nil => rfl
  | cons y ys =>
    have := h y (List.mem_cons_self _ _)
    simp [insertIdxKey, this]

theorem noIndexKeys_parts {α : Type} :
    ∀ kvs : List (String × α), noIndexKeys (kvs.map Prod.fst) = true →
      idxOf kvs = [] ∧ nonIdxOf kvs = kvs := by
  intro kvs
  induction kvs with
  | nil => intro _; exact ⟨rfl, rfl⟩
  | cons p rest ih =>
    intro h
    simp only [List.map_cons, noIndexKeys, List.all_cons, Bool.and_eq_true] at h
    obtain ⟨hp, hrest⟩ := h
    have hnone : arrayIndexKey p.1 = none := by
      cases he : arrayIndexKey p.1 with
      | none => rfl
      | some n => rw [he] at hp; simp [Option.isNone] at hp
    obtain ⟨h1, h2⟩ := ih (by simpa [noIndexKeys] using hrest)
    constructor
    · simp [idxOf, List.filterMap_cons, hnone]
      simpa [idxOf] using h1
    · simp [nonIdxOf, List.filter_cons, hnone]
      simpa [nonIdxOf] using h2

theorem ascIndexFrom_fixed {α : Type} :
    ∀ (kvs : List (String × α)) (prev : Option Nat),
      ascIndexFrom prev (kvs.map Prod.fst) = true →
      sortIdxKeys (idxOf kvs) = idxOf kvs ∧
      (∀ q ∈ idxOf kvs, ∀ p, prev = some p → p < q.1) ∧
      (idxOf kvs).map Prod.snd ++ nonIdxOf kvs = kvs := by
  intro kvs
  induction kvs with
  | nil =>
    intro prev _
    refine ⟨rfl, ?_, rfl⟩
    intro q hq
    simp [idxOf] at hq
  | cons kv rest ih =>
    intro prev h
    simp only [List.map_cons, ascIndexFrom] at h
    cases he : arrayIndexKey kv.1 with
    | none =>
      rw [he] at h
      have hni : noIndexKeys ((kv :: rest).map Prod.fst) = true := by
        simpa [noIndexKeys, List.map_cons] using h
      obtain ⟨h1, h2⟩ := noIndexKeys_parts (kv :: rest) hni
      rw [h1, h2]
      refine ⟨rfl, ?_, rfl⟩
      intro q hq
      simp at hq
    | some n =>
      rw [he] at h
      simp only [Bool.and_eq_true] at h
      obtain ⟨hprev, hrest⟩ := h
      obtain ⟨hs, hgt, happ⟩ := ih (some n) hrest
      have hidx : idxOf (kv :: rest) = (n, kv) :: idxOf rest := by
        simp [idxOf, List.filterMap_cons, he]
      have hnidx : nonIdxOf (kv :: rest) = nonIdxOf rest := by
        simp [nonIdxOf, List.filter_cons, he]
      have hgt' : ∀ q ∈ idxOf rest, n < q.1 := fun q hq => hgt q hq n rfl
      refine ⟨?_, ?_, ?_⟩
      · rw [hidx]
        show insertIdxKey (n, kv) (sortIdxKeys (idxOf rest)) = (n, kv) :: idxOf rest
        rw [hs]
        exact insertIdxKey_head _ _ hgt'
      · rw [hidx]
        intro q hq p hp
        cases hp
        rcases List.mem_cons.mp hq with hq1 | hq2
        · subst hq1
          simpa using hprev
        · exact Nat.lt_trans (by simpa using hprev) (hgt' q hq2)
      · rw [hidx, hnidx, List.map_cons]
        simpa using happ

/-- A key list in enumeration order is left unchanged by the enumeration
reordering. -/
theorem jsOrderKeys_fixed {α : Type} (kvs : List (String × α))
    (h : jsOrderedKeys (kvs.map Prod.fst) = true) : jsOrderKeys kvs = kvs := by
  obtain ⟨hs, _, happ⟩ := ascIndexFrom_fixed kvs none h
  unfold jsOrderKeys
  rw [hs, happ]

theorem insertIdxKey_perm {α : Type} (x : Nat × (String × α))
    (l : List (Nat × (String × α))) : (insertIdxKey x l).Perm (x :: l) := by
  induction l with
  | nil => exact List.Perm.refl _
  | cons y ys ih =>
    by_cases hxy : x.1 < y.1
    · simp [insertIdxKey, hxy]
    · simp only [insertIdxKey, hxy, if_false]
      exact (ih.cons y).trans (List.Perm.swap x y ys)

theorem sortIdxKeys_perm {α : Type} (l : List (Nat × (String × α))) :
    (sortIdxKeys l).Perm l := by
  induction l with
  | nil => exact List.Perm.refl _
  | cons x xs ih =>
    exact (insertIdxKey_perm x (sortIdxKeys xs)).trans (ih.cons x)

theorem idx_nonidx_perm {α : Type} (kvs : List (String × α)) :
    ((idxOf kvs).map Prod.snd ++ nonIdxOf kvs).Perm kvs := by
  induction kvs with
  | nil => exact List.Perm.refl _
  | cons p rest ih =>
    cases he : arrayIndexKey p.1 with
    | some n =>
      have hidx : idxOf (p :: rest) = (n, p) :: idxOf rest := by
        simp [idxOf, List.filterMap_cons, he]
      have hnidx : nonIdxOf (p :: rest) = nonIdxOf rest := by
        simp [nonIdxOf, List.filter_cons, he]
      rw [hidx, hnidx, List.map_cons]
      exact ih.cons p
    | none =>
      have hidx : idxOf (p :: rest) = idxOf rest := by
        simp [idxOf, List.filterMap_cons, he]
      have hnidx : nonIdxOf (p :: rest) = p :: nonIdxOf rest := by
        simp [nonIdxOf, List.filter_cons, he]
      rw [hidx, hnidx]
      exact List.perm_middle.trans (ih.cons p)

theorem perm_sizeOf {α : Type} [SizeOf α] {l₁ l₂ : List α} (h : l₁.Perm l₂) :
    sizeOf l₁ = sizeOf l₂ := by
  induction h with
  | nil => rfl
  | cons x _ ih => simp [ih]
  | swap x y l => simp; omega
  | trans _ _ ih1 ih2 => omega

theorem jsOrderKeys_perm {α : Type} (kvs : List (String × α)) :
    (jsOrderKeys kvs).Perm kvs := by
  unfold jsOrderKeys
  exact (((sortIdxKeys_perm (idxOf kvs)).map Prod.snd).append_right (nonIdxOf kvs)).trans
    (idx_nonidx_perm kvs)

/-- Reordering an object's properties into enumeration order preserves the
list's size (needed for the deserializer's termination). -/
theorem jsOrderKeys_sizeOf {α : Type} [SizeOf α] (kvs : List (String × α)) :
    sizeOf (jsOrderKeys kvs) = sizeOf kvs :=
  perm_sizeOf (jsOrderKeys_perm kvs)

theorem jsOrderKeys_single_nonIdx {α : Type} (k : String) (v : α)
    (h : arrayIndexKey k = none) : jsOrderKeys [(k, v)] = [(k, v)] := by
  simp [jsOrderKeys, idxOf, nonIdxOf, sortIdxKeys, List.filterMap_cons, List.filter_cons, h]

mutual

/-- JavaScript `String()` / `ToString` of a value: `"null"`, `"undefined"`,
booleans and numbers as text, strings unchanged, arrays as the comma-joined
conversion of their elements (with `null`/`undefined` elements rendered empty),
plain objects as `"[object Object]"`. -/
def jsToString : JValue → String
  | .null => "null"
  | .jsUndefined => "undefined"
  | .bool b => if b then "true" else "false"
  | .num n => numToString n
  | .str s => s
  | .arr xs => jsToStringItems xs
  | .obj _ => "[object Object]"

/-- Comma-joined `ToString` of array elements (JavaScript `Array.prototype.join`). -/
def jsToStringItems : List JValue → String
  | [] => ""
  | [x] =>
    match x with
    | .null => ""
    | .jsUndefined => ""
    | v => jsToString v
  | x :: xs =>
    (match x with
     | .null => ""
     | .jsUndefined => ""
     | v => jsToString v) ++ "," ++ jsToStringItems xs

end

/-- Escape quote and backslash for `JSON.stringify` string output. -/
def jsonEscape (s : String) : String :=
  String.join (s.toList.map (fun c =>
    if c = '"' then "\\\""
    else if c = '\\' then "\\\\"
    else String.singleton c))

/-- Join rendered object properties with commas, skipping the ones whose value
rendered to nothing (`undefined`-valued properties). -/
def joinProps : List (String × Option String) → String
  | [] => ""
  | (k, o) :: rest =>
    match o with
    | none => joinProps rest
    | some s =>
      let piece := "\"" ++ jsonEscape k ++ "\":" ++ s
      let r := joinProps rest
      if r = "" then piece else piece ++ "," ++ r

mutual

/-- JavaScript `JSON.stringify`, as used in deserialization error messages.
`undefined` at the top level renders as `"undefined"` (the string produced when
the result is concatenated into a message); inside arrays it renders `"null"`
and object properties holding it are skipped.  Object properties are emitted in
own-property enumeration order (`jsOrderKeys`); each property's text depends
only on that property, so the renderings are computed per property and then
assembled in that order.  NaN renders `"null"`.  String escaping covers quote
and backslash (control-character escapes are not modelled; no claim exercises
them). -/
def jsonStringify : JValue → String
  | .null => "null"
  | .jsUndefined => "undefined"
  | .bool b => if b then "true" else "false"
  | .num (.int n) => toString n
  | .num .nan => "null"
  | .str s => "\"" ++ jsonEscape s ++ "\""
  | .arr xs => "[" ++ jsonStringifyItems xs ++ "]"
  | .obj kvs => "\x7b" ++ joinProps (jsOrderKeys (jsonStringifyPieces kvs)) ++ "\x7d"

/-- Array elements under `JSON.stringify`, comma-joined, `undefined` as `null`. -/
def jsonStringifyItems : List JValue → String
  | [] => ""
  | [x] =>
    match x with
    | .jsUndefined => "null"
    | v => jsonStringify v
  | x :: xs =>
    (match x with
     | .jsUndefined => "null"
     | v => jsonStringify v) ++ "," ++ jsonStringifyItems xs

/-- Render each object property: `none` marks an `undefined`-valued property
(skipped in the output). -/
def jsonStringifyPieces : List (String × JValue) → List (String × Option String)
  | [] => []
  | (k, v) :: rest =>
    (k, match v with
        | .jsUndefined => none
        | v' => some (jsonStringify v')) :: jsonStringifyPieces rest

end

/-- Look up a property in a modelled JavaScript object (first match; keys are
unique by construction via `objInsert`). -/
def objLookup {α : Type} (kvs : List (String × α)) (k : String) : Option α :=
  match kvs.find? (fun p => p.1 == k) with
  | some p => some p.2
  | none => none

/-- Whether a modelled JavaScript object has a property named `k`. -/
def hasKey {α : Type} (kvs : List (String × α)) (k : String) : Bool :=
  kvs.any (fun p => p.1 == k)

/-- Property assignment `obj[k] = v` on a modelled JavaScript object: an
existing key keeps its position and gets the new value, a fresh key is
appended.  The stored list is the insertion order; every observation of
property ORDER (`for..in`, `JSON.stringify`) goes through `jsOrderKeys`, which
produces the actual JavaScript enumeration order (array-index keys ascending
first). -/
def objInsert {α : Type} (kvs : List (String × α)) (k : String) (v : α) : List (String × α) :=
  if hasKey kvs k then
    kvs.map (fun p => if p.1 == k then (k, v) else p)
  else
    kvs ++ [(k, v)]

/-- The `length` property of a value: array length, string length, an object's
own `length` property if any, `undefined` otherwise. -/
def jsLength : JValue → JValue
  | .arr xs => .num (.int (xs.length : Int))
  | .str s => .num (.int (s.length : Int))
  | .obj kvs =>
    match objLookup kvs "length" with
    | some l => l
    | none => .jsUndefined
  | _ => .jsUndefined

/-- JavaScript loose equality `v == n` against a number `n`: numbers compare
numerically (NaN and the infinities equal no integer), strings and arrays via
`ToNumber` of their string conversion, booleans as 0/1,
`null`/`undefined`/objects never equal a number. -/
def jsLooseEqNum (v : JValue) (n : Int) : Bool
  := match v with
  | .num (.int m) => m == n
  | .num .nan => false
  | .str s =>
    match strToNumber s with
    | .fin m e => dyadicEqInt m e n
    | _ => false
  | .bool b => (if b then (1 : Int) else 0) == n
  | .null => false
  | .jsUndefined => false
  | .arr xs =>
    match strToNumber (jsToStringItems xs) with
    | .fin m e => dyadicEqInt m e n
    | _ => false
  | .obj _ => false

/-- JavaScript relational `v < n` against a number: operands go through
`ToNumber` (`null` is 0, `undefined` and plain objects are NaN, which compares
false), strings and arrays via their string conversion, where negative
infinity is below every integer and positive infinity below none. -/
def jsLtNum (v : JValue) (n : Int) : Bool
  := match v with
  | .num (.int m) => m < n
  | .num .nan => false
  | .null => decide ((0 : Int) < n)
  | .jsUndefined => false
  | .bool b => decide ((if b then (1 : Int) else 0) < n)
  | .str s =>
    match strToNumber s with
    | .fin m e => dyadicLtInt m e n
    | .inf neg => neg
    | .nan => false
  | .arr xs =>
    match strToNumber (jsToStringItems xs) with
    | .fin m e => dyadicLtInt m e n
    | .inf neg => neg
    | .nan => false
  | .obj _ => false

/- Typed accessors of the `TValue` capability.  In the source each concrete
class implements all seven getters; the matching one returns the held data and
every other one throws a `TProtocolException` with kind INVALID_DATA.  The
`TBase` getters return the raw optional payload (`this.value as ...`), so an
absent payload is returned as-is, never checked. -/

/-- The `booleanValue` getter: succeeds only on a `TBase` whose tag is BOOL. -/
def booleanValue : TValue → Except TProtocolException (Option Prim)
  | .base t v =>
    if t = TType.BOOL then .ok v
    else .error ⟨TProtocolExceptionType.INVALID_DATA, "expected boolean value"⟩
  | _ => .error ⟨TProtocolExceptionType.INVALID_DATA, "expected boolean value"⟩

/-- The `numberValue` getter: succeeds only on a `TBase` whose tag is one of
BYTE/I08, I16, I32, I64, DOUBLE. -/
def numberValue : TValue → Except TProtocolException (Option Prim)
  | .base t v =>
    if t = TType.BYTE ∨ t = TType.I16 ∨ t = TType.I32 ∨ t = TType.I64 ∨ t = TType.DOUBLE then .ok v
    else .error ⟨TProtocolExceptionType.INVALID_DATA, "expected number value"⟩
  | _ => .error ⟨TProtocolExceptionType.INVALID_DATA, "expected number value"⟩

/-- The `stringValue` getter: succeeds only on a `TBase` whose tag is one of
STRING/UTF7, UTF8, UTF16. -/
def stringValue : TValue → Except TProtocolException (Option Prim)
  | .base t v =>
    if t = TType.STRING ∨ t = TType.UTF8 ∨ t = TType.UTF16 then .ok v
    else .error ⟨TProtocolExceptionType.INVALID_DATA, "expected string value"⟩
  | _ => .error ⟨TProtocolExceptionType.INVALID_DATA, "expected string value"⟩

/-- The `listValue` getter: succeeds only on a `TList`, returning it. -/
def listValue : TValue → Except TProtocolException TValue
  | .list it items => .ok (.list it items)
  | _ => .error ⟨TProtocolExceptionType.INVALID_DATA, "expected list value"⟩

/-- The `mapValue` getter: succeeds only on a `TMap`, returning it. -/
def mapValue : TValue → Except TProtocolException TValue
  | .map kt vt items => .ok (.map kt vt items)
  | _ => .error ⟨TProtocolExceptionType.INVALID_DATA, "expected map value"⟩

/-- The `setValue` getter: succeeds only on a `TSet`, returning it. -/
def setValue : TValue → Except TProtocolException TValue
  | .set it items => .ok (.set it items)
  | _ => .error ⟨TProtocolExceptionType.INVALID_DATA, "expected set value"⟩

/-- The `structValue` getter: succeeds only on a `TStruct`, returning it. -/
def structValue : TValue → Except TProtocolException TValue
  | .struct fields => .ok (.struct fields)
  | _ => .error ⟨TProtocolExceptionType.INVALID_DATA, "expected struct value"⟩

/-- Model of `TStruct.getField(id, fieldType)`: looks up `this.fields[id]` (the JS
object keyed by `String(id)`); returns the field only when it exists (truthy)
and its `fieldType` strictly equals the expected tag, `null` (`none`)
otherwise.  It never throws. -/
def getField (fields : List (String × TField)) (id : Int) (fieldType : TType) : Option TField :=
  match objLookup fields (toString id) with
  | some f => if f.fieldType = fieldType then some f else none
  | none => none

/-- Model of `asField()`: wraps it with its own type tag into a `TField`. -/
def asField (v : TValue) : TField := (v.valueType, v)

namespace TJSONProtocol

/-- Model of `TJSONProtocol.typeString`: type tag to wire tag string; unknown tags
(including STOP, VOID and the distinct UTF8/UTF16 codes) throw INVALID_DATA
with the numeric tag in the message. -/
def typeString (type : TType) : Except TProtocolException String :=
  if type = TType.BOOL then .ok "tf"
  else if type = TType.I08 then .ok "i8"
  else if type = TType.I16 then .ok "i16"
  else if type = TType.I32 then .ok "i32"
  else if type = TType.I64 then .ok "i64"
  else if type = TType.DOUBLE then .ok "dbl"
  else if type = TType.STRING then .ok "str"
  else if type = TType.LIST then .ok "lst"
  else if type = TType.MAP then .ok "map"
  else if type = TType.SET then .ok "set"
  else if type = TType.STRUCT then .ok "rec"
  else .error ⟨TProtocolExceptionType.INVALID_DATA, "unsupported type (" ++ toString type ++ ")"⟩

/-- Model of `TJSONProtocol.typeOfString`: wire tag string to type tag; unknown strings
throw INVALID_DATA. -/
def typeOfString (type : String) : Except TProtocolException TType :=
  if type = "tf" then .ok TType.BOOL
  else if type = "i8" then .ok TType.I08
  else if type = "i16" then .ok TType.I16
  else if type = "i32" then .ok TType.I32
  else if type = "i64" then .ok TType.I64
  else if type = "str" then .ok TType.STRING
  else if type = "dbl" then .ok TType.DOUBLE
  else if type = "lst" then .ok TType.LIST
  else if type = "map" then .ok TType.MAP
  else if type = "set" then .ok TType.SET
  else if type = "rec" then .ok TType.STRUCT
  else .error ⟨TProtocolExceptionType.INVALID_DATA, "unsupported type (" ++ type ++ ")"⟩

/-- The `typeOfString` switch applied to an arbitrary JavaScript value, as happens on the
result of `list.shift()`: a non-string matches no `switch` case and throws
INVALID_DATA with the value's string conversion in the message. -/
def typeOfStringJ (type : JValue) : Except TProtocolException TType :=
  match type with
  | .str s => typeOfString s
  | v => .error ⟨TProtocolExceptionType.INVALID_DATA, "unsupported type (" ++ jsToString v ++ ")"⟩

end TJSONProtocol

/-- The numeric scalar tag family handled by one `switch` group of the codec:
BYTE/I08 (both 3), I16, I32, I64, DOUBLE. -/
def numericTag (t : TType) : Bool :=
  t == TType.BYTE || t == TType.I16 || t == TType.I32 || t == TType.I64 || t == TType.DOUBLE

/-- The string scalar tag family handled by one `switch` group of the codec:
UTF7/STRING (both 11), UTF8, UTF16. -/
def stringTag (t : TType) : Bool :=
  t == TType.UTF7 || t == TType.UTF8 || t == TType.UTF16 || t == TType.STRING

/-- Lift a thrown `TProtocolException` into the combined error type. -/
def protoLift {α : Type} : Except TProtocolException α → Except JSError α
  | .ok a => .ok a
  | .error e => .error (.protocolError e)

/-- Fold per-field serialization results into the struct's JSON object in the
order given (the enumeration order of `for (let id in struct.fields)`):
each successful field is assigned as `data[id] = {wireTag: serialized}`, and
the first failing field's error propagates, exactly as the source loop
throws out of its first failing iteration. -/
def buildStructObj (rs : List (String × Except JSError (String × JValue)))
    (acc : List (String × JValue)) : Except JSError (List (String × JValue)) :=
  match rs with
  | [] => .ok acc
  | (id, r) :: rest =>
    match r with
    | .error e => .error e
    | .ok (tag, sv) => buildStructObj rest (objInsert acc id (.obj [(tag, sv)]))

mutual

/-- Model of `TJSONProtocol.serializeValue`, dispatching on `value.valueType` exactly as
the source `switch` does.  The source's leading `isNull(value)` guard can only
fire on a `null`/`undefined` argument, which the model's tree type cannot
represent; `serializeValueOpt` carries that guard.  A `TBase` whose tag is a
container tag falls into the container cases through the unchecked `as` casts
of the source; those arms reproduce what the cast code does on a `TBase`
(reading `itemType`/`items`/`fields` yields `undefined`). -/
def serializeValue : TValue → Except JSError JValue
  | .base t v =>
    if t = TType.BOOL then
      match v with
      | none => .ok .null
      | some (.pb b) => .ok (.num (.int (if b then 1 else 0)))
      | some p =>
        .error (.protocolError ⟨TProtocolExceptionType.INVALID_DATA,
          "boolean expected (" ++ primToString p ++ ")"⟩)
    else if numericTag t then
      match v with
      | none => .ok .null
      | some (.pn .nan) =>
        .error (.protocolError ⟨TProtocolExceptionType.INVALID_DATA, "number is NaN"⟩)
      | some (.pn (.int n)) => .ok (.num (.int n))
      | some p =>
        .error (.protocolError ⟨TProtocolExceptionType.INVALID_DATA,
          "number expected (" ++ primToString p ++ ")"⟩)
    else if stringTag t then
      match v with
      | none => .ok .null
      | some (.ps s) => .ok (.str s)
      | some p =>
        .error (.protocolError ⟨TProtocolExceptionType.INVALID_DATA,
          "string expected (" ++ primToString p ++ ")"⟩)
    else if t = TType.LIST ∨ t = TType.SET then
      -- cast garbage: `typeString((value as TList).itemType)` sees `undefined`
      .error (.protocolError ⟨TProtocolExceptionType.INVALID_DATA, "unsupported type (undefined)"⟩)
    else if t = TType.MAP then
      -- cast garbage: `for (let item of (value as TMap).items)` iterates `undefined`
      .error (.typeError "map.items is not iterable")
    else if t = TType.STRUCT then
      -- cast garbage: `for (let id in (value as TStruct).fields)` over `undefined` yields nothing
      .ok (.obj [])
    else
      .error (.protocolError ⟨TProtocolExceptionType.INVALID_DATA,
        "unsupported value type ([object Object])"⟩)
  | .list it items => do
    let tag ← protoLift (TJSONProtocol.typeString it)
    let js ← serializeItems items
    .ok (.arr (.str tag :: .num (.int (items.length : Int)) :: js))
  | .map kt vt entries => do
    let dataObj ← serializeMapEntries entries []
    let ktS ← protoLift (TJSONProtocol.typeString kt)
    let vtS ← protoLift (TJSONProtocol.typeString vt)
    .ok (.arr [.str ktS, .str vtS, .num (.int (entries.length : Int)), .obj dataObj])
  | .set it items => do
    let tag ← protoLift (TJSONProtocol.typeString it)
    let js ← serializeItems items
    .ok (.arr (.str tag :: .num (.int (items.length : Int)) :: js))
  | .struct fields => do
    let dataObj ← buildStructObj (jsOrderKeys (serializeFieldResults fields)) []
    .ok (.obj dataObj)

/-- Serialize the items of a `TList`/`TSet` in order (the source's `for..of`
push loop). -/
def serializeItems : List TValue → Except JSError (List JValue)
  | [] => .ok []
  | x :: xs => do
    let j ← serializeValue x
    let js ← serializeItems xs
    .ok (j :: js)

/-- Serialize `TMap` entries into the JSON entries object
(`data2[serialize(key)] = serialize(value)`): each serialized key is converted
to a property name via `ToString` and assigned, overwriting duplicates. -/
def serializeMapEntries (entries : List (TValue × TValue)) (acc : List (String × JValue)) :
    Except JSError (List (String × JValue))
  := match entries with
  | [] => .ok acc
  | (k, v) :: rest => do
    let sk ← serializeValue k
    let sv ← serializeValue v
    serializeMapEntries rest (objInsert acc (jsToString sk) sv)

/-- Per-field serialization work of the struct loop: for each field, the wire
tag of its declared type (computed before the value, as in
`item[typeString(field.fieldType)] = serializeValue(field.value)`) and its
serialized value.  Each field's result depends on that field alone, so the
results are computed over the stored field list and folded by `buildStructObj`
in the enumeration order of the `fields` object (`jsOrderKeys`). -/
def serializeFieldResults : List (String × TField) →
    List (String × Except JSError (String × JValue))
  | [] => []
  | (id, f) :: rest =>
    (id, do
      let tag ← protoLift (TJSONProtocol.typeString f.fieldType)
      let sv ← serializeValue f.value
      .ok (tag, sv)) :: serializeFieldResults rest

end

/-- The source's `serializeValue` on its full `TValue | null | undefined`
domain: the leading `isNull` guard returns JSON `null` for an absent argument. -/
def serializeValueOpt : Option TValue → Except JSError JValue
  | none => .ok .null
  | some v => serializeValue v

/-- Model of `TJSONProtocol.deserializeValue` specialised to a string input, exactly the
call the map branch makes on each `for..in` property name
(`this.deserializeValue(keyType, key)` with `key : string`).  A string is
never nullish; the numeric tags reject it; the collection tags either fail
their guards or reach `shift()` on a non-array (a `TypeError`); the struct tag
iterates the string's indices and throws on `typeOfString("0")`.  Splitting
this case out keeps the main definition structurally recursive; the theorem
`deserializeKey_spec` below proves it agrees with `deserializeValue` on every
string input. -/
def deserializeKey (valueType : TType) (s : String) : Except JSError TValue :=
  if valueType = TType.BOOL then
    .ok (.base valueType (some (.pb (truthy (.str s)))))
  else if numericTag valueType then
    .error (.protocolError ⟨TProtocolExceptionType.INVALID_DATA,
      "number expected: " ++ jsonStringify (.str s)⟩)
  else if stringTag valueType then
    .ok (.base valueType (some (.ps s)))
  else if valueType = TType.LIST then
    if !(truthy (.str s)) || jsLtNum (jsLength (.str s)) 2 then
      .error (.protocolError ⟨TProtocolExceptionType.INVALID_DATA,
        "list expected: " ++ jsonStringify (.str s)⟩)
    else .error (.typeError "value.shift is not a function")
  else if valueType = TType.MAP then
    if !(truthy (.str s)) || !(jsLooseEqNum (jsLength (.str s)) 4) then
      .error (.protocolError ⟨TProtocolExceptionType.INVALID_DATA,
        "map expected: " ++ jsonStringify (.str s)⟩)
    else .error (.typeError "value.shift is not a function")
  else if valueType = TType.SET then
    if !(truthy (.str s)) || jsLtNum (jsLength (.str s)) 2 then
      .error (.protocolError ⟨TProtocolExceptionType.INVALID_DATA,
        "set expected: " ++ jsonStringify (.str s)⟩)
    else .error (.typeError "value.shift is not a function")
  else if valueType = TType.STRUCT then
    if !(truthy (.str s)) then
      .error (.protocolError ⟨TProtocolExceptionType.INVALID_DATA,
        "struct expected: " ++ jsonStringify (.str s)⟩)
    else
      .error (.protocolError ⟨TProtocolExceptionType.INVALID_DATA, "unsupported type (0)"⟩)
  else
    .error (.protocolError ⟨TProtocolExceptionType.INVALID_DATA,
      "unsupported value type (" ++ jsToString (.str s) ++ ")"⟩)

/-- Map entries decoded from a string entries object (`for..in` over a string
visits its indices; each property value is the 1-character string at that
index).  Both decodes run on string inputs. -/
def deserializeEntriesStr (keyType itemType : TType) (i : Nat) (cs : List Char) :
    Except JSError (List (TValue × TValue))
  := match cs with
  | [] => .ok []
  | c :: rest => do
    let k ← deserializeKey keyType (toString i)
    let v ← deserializeKey itemType (String.singleton c)
    let items ← deserializeEntriesStr keyType itemType (i + 1) rest
    .ok ((k, v) :: items)

/-- The BOOL arm of `deserializeValue`: absent input gives a payload-free
scalar; any other input is coerced with `value ? true : false`. -/
def deserializeBoolCase (valueType : TType) (value : JValue) : Except JSError TValue :=
  if isNullish value then .ok (.base valueType none)
  else .ok (.base valueType (some (.pb (truthy value))))

/-- The numeric arm of `deserializeValue`: absent input gives a payload-free
scalar; a number is stored as-is; everything else throws INVALID_DATA. -/
def deserializeNumCase (valueType : TType) (value : JValue) : Except JSError TValue :=
  if isNullish value then .ok (.base valueType none)
  else
    match value with
    | .num n => .ok (.base valueType (some (.pn n)))
    | _ =>
      .error (.protocolError ⟨TProtocolExceptionType.INVALID_DATA,
        "number expected: " ++ jsonStringify value⟩)

/-- The string-family arm of `deserializeValue`: absent input gives a
payload-free scalar; a string is stored as-is; everything else throws
INVALID_DATA. -/
def deserializeStrCase (valueType : TType) (value : JValue) : Except JSError TValue :=
  if isNullish value then .ok (.base valueType none)
  else
    match value with
    | .str s => .ok (.base valueType (some (.ps s)))
    | _ =>
      .error (.protocolError ⟨TProtocolExceptionType.INVALID_DATA,
        "string expected: " ++ jsonStringify value⟩)

mutual

/-- Model of `TJSONProtocol.deserializeValue`, dispatching on the expected type tag as
the source `switch` does; each arm's body is its own definition. -/
def deserializeValue (valueType : TType) (value : JValue) : Except JSError TValue :=
  if valueType = TType.BOOL then deserializeBoolCase valueType value
  else if numericTag valueType then deserializeNumCase valueType value
  else if stringTag valueType then deserializeStrCase valueType value
  else if valueType = TType.LIST then deserializeListCase value
  else if valueType = TType.MAP then deserializeMapCase value
  else if valueType = TType.SET then deserializeSetCase value
  else if valueType = TType.STRUCT then deserializeStructCase value
  else
    .error (.protocolError ⟨TProtocolExceptionType.INVALID_DATA,
      "unsupported value type (" ++ jsToString value ++ ")"⟩)
termination_by (sizeOf value, 1)

/-- The LIST arm: the guards reproduce the JavaScript comparisons
(`!list || list.length < 2`, then loose `!=` against the declared count), so a
truthy non-array that slips through the guard reaches `shift()` and fails with
a `TypeError` rather than a protocol error. -/
def deserializeListCase (value : JValue) : Except JSError TValue :=
  if !(truthy value) || jsLtNum (jsLength value) 2 then
    .error (.protocolError ⟨TProtocolExceptionType.INVALID_DATA,
      "list expected: " ++ jsonStringify value⟩)
  else
    match value with
    | .arr (tagJ :: sizeJ :: rest) => do
      let itemType ← protoLift (TJSONProtocol.typeOfStringJ tagJ)
      let items ← deserializeItems itemType rest
      if jsLooseEqNum sizeJ (items.length : Int) then
        .ok (.list itemType items)
      else
        .error (.protocolError ⟨TProtocolExceptionType.INVALID_DATA,
          "list size mismatch: " ++ toString items.length ++ " != " ++ jsToString sizeJ⟩)
    | .arr _ =>
      -- unreachable: arrays shorter than 2 are caught by the guard above
      .error (.protocolError ⟨TProtocolExceptionType.INVALID_DATA,
        "list expected: " ++ jsonStringify value⟩)
    | _ => .error (.typeError "value.shift is not a function")
termination_by (sizeOf value, 0)

/-- The MAP arm: guard `!map || map.length != 4` (loose), then key tag, value
tag, declared count and entries object in order. -/
def deserializeMapCase (value : JValue) : Except JSError TValue :=
  if !(truthy value) || !(jsLooseEqNum (jsLength value) 4) then
    .error (.protocolError ⟨TProtocolExceptionType.INVALID_DATA,
      "map expected: " ++ jsonStringify value⟩)
  else
    match value with
    | .arr [keyJ, valJ, sizeJ, dataJ] => do
      let keyType ← protoLift (TJSONProtocol.typeOfStringJ keyJ)
      let itemType ← protoLift (TJSONProtocol.typeOfStringJ valJ)
      let items ← deserializeMapData keyType itemType dataJ
      if jsLooseEqNum sizeJ (items.length : Int) then
        .ok (.map keyType itemType items)
      else
        .error (.protocolError ⟨TProtocolExceptionType.INVALID_DATA,
          "map size mismatch: " ++ toString items.length ++ " != " ++ jsToString sizeJ⟩)
    | .arr _ =>
      -- unreachable: arrays of length other than 4 are caught by the guard above
      .error (.protocolError ⟨TProtocolExceptionType.INVALID_DATA,
        "map expected: " ++ jsonStringify value⟩)
    | _ => .error (.typeError "value.shift is not a function")
termination_by (sizeOf value, 0)

/-- The SET arm: same decoding as LIST with "set" wording and a `TSet` result. -/
def deserializeSetCase (value : JValue) : Except JSError TValue :=
  if !(truthy value) || jsLtNum (jsLength value) 2 then
    .error (.protocolError ⟨TProtocolExceptionType.INVALID_DATA,
      "set expected: " ++ jsonStringify value⟩)
  else
    match value with
    | .arr (tagJ :: sizeJ :: rest) => do
      let itemType ← protoLift (TJSONProtocol.typeOfStringJ tagJ)
      let items ← deserializeItems itemType rest
      if jsLooseEqNum sizeJ (items.length : Int) then
        .ok (.set itemType items)
      else
        .error (.protocolError ⟨TProtocolExceptionType.INVALID_DATA,
          "set size mismatch: " ++ toString items.length ++ " != " ++ jsToString sizeJ⟩)
    | .arr _ =>
      -- unreachable: arrays shorter than 2 are caught by the guard above
      .error (.protocolError ⟨TProtocolExceptionType.INVALID_DATA,
        "set expected: " ++ jsonStringify value⟩)
    | _ => .error (.typeError "value.shift is not a function")
termination_by (sizeOf value, 0)

/-- The STRUCT arm: a falsy input throws; otherwise `for..in` over the input
drives field decoding (properties of an object in enumeration order, indices
of an array or string, nothing for other truthy values). -/
def deserializeStructCase (value : JValue) : Except JSError TValue :=
  if !(truthy value) then
    .error (.protocolError ⟨TProtocolExceptionType.INVALID_DATA,
      "struct expected: " ++ jsonStringify value⟩)
  else
    match value with
    | .obj kvs => do
      let fields ← deserializeFieldsObj (jsOrderKeys kvs) []
      .ok (.struct fields)
    | .arr xs => do
      let fields ← deserializeFieldsArr 0 xs []
      .ok (.struct fields)
    | .str _ =>
      -- `for..in` over a nonempty string: the first inner value is a
      -- 1-character string whose single own index is "0"; typeOfString("0")
      -- throws.  (The empty string is falsy, caught by the guard above.)
      .error (.protocolError ⟨TProtocolExceptionType.INVALID_DATA, "unsupported type (0)"⟩)
    | _ =>
      -- `for..in` over truthy numbers/booleans yields nothing: empty struct
      .ok (.struct [])
termination_by (sizeOf value, 0)
decreasing_by
  all_goals
    (first
      | decreasing_tactic
      | (simp_wf
         apply Prod.Lex.left
         rw [jsOrderKeys_sizeOf]
         omega))

/-- Decode the remaining elements of a list/set array with the declared item
tag (the source's `for..of` push loop). -/
def deserializeItems (itemType : TType) (xs : List JValue) : Except JSError (List TValue) :=
  match xs with
  | [] => .ok []
  | x :: rest => do
    let v ← deserializeValue itemType x
    let vs ← deserializeItems itemType rest
    .ok (v :: vs)
termination_by (sizeOf xs, 0)

/-- Decode the map entries object: `for..in` over it yields properties in
enumeration order for an object, indices for an array or string, and nothing
for any other value. -/
def deserializeMapData (keyType itemType : TType) (dataJ : JValue) :
    Except JSError (List (TValue × TValue))
  := match dataJ with
  | .obj kvs => deserializeEntriesObj keyType itemType (jsOrderKeys kvs)
  | .arr xs => deserializeEntriesArr keyType itemType 0 xs
  | .str s => deserializeEntriesStr keyType itemType 0 s.toList
  | _ => .ok []
termination_by (sizeOf dataJ, 0)
decreasing_by
  all_goals
    (first
      | decreasing_tactic
      | (simp_wf
         apply Prod.Lex.left
         rw [jsOrderKeys_sizeOf]
         omega))

/-- Decode map entries from an object: each property name is decoded as the
key with the declared key tag (a string input), each property value with the
declared item tag. -/
def deserializeEntriesObj (keyType itemType : TType) (kvs : List (String × JValue)) :
    Except JSError (List (TValue × TValue))
  := match kvs with
  | [] => .ok []
  | (k, jv) :: rest => do
    let kk ← deserializeKey keyType k
    let vv ← deserializeValue itemType jv
    let items ← deserializeEntriesObj keyType itemType rest
    .ok ((kk, vv) :: items)
termination_by (sizeOf kvs, 0)

/-- Decode map entries from an array entries object: `for..in` visits the
indices, so keys are the decimal index strings. -/
def deserializeEntriesArr (keyType itemType : TType) (i : Nat) (xs : List JValue) :
    Except JSError (List (TValue × TValue))
  := match xs with
  | [] => .ok []
  | x :: rest => do
    let kk ← deserializeKey keyType (toString i)
    let vv ← deserializeValue itemType x
    let items ← deserializeEntriesArr keyType itemType (i + 1) rest
    .ok ((kk, vv) :: items)
termination_by (sizeOf xs, 0)

/-- Decode struct fields from an object's properties: for each field id and
each inner wire-tag key, decode with that tag and assign at
`String(parseInt(id))` (later inner keys overwrite earlier ones). -/
def deserializeFieldsObj (kvs : List (String × JValue)) (acc : List (String × TField)) :
    Except JSError (List (String × TField))
  := match kvs with
  | [] => .ok acc
  | (id, inner) :: rest => do
    let acc2 ← deserializeInner id inner acc
    deserializeFieldsObj rest acc2
termination_by (sizeOf kvs, 0)

/-- Decode struct fields from an array input: `for..in` visits the indices,
so field ids are the decimal index strings. -/
def deserializeFieldsArr (i : Nat) (xs : List JValue) (acc : List (String × TField)) :
    Except JSError (List (String × TField))
  := match xs with
  | [] => .ok acc
  | inner :: rest => do
    let acc2 ← deserializeInner (toString i) inner acc
    deserializeFieldsArr (i + 1) rest acc2
termination_by (sizeOf xs, 0)

/-- Process one struct field's inner object `{wireTag: value, ...}`.  A
non-object inner value is enumerated by `for..in` per its own keys: an array
or nonempty string exposes index "0" first and `typeOfString("0")` throws;
anything else yields no keys, so no field is stored for this id. -/
def deserializeInner (id : String) (inner : JValue) (acc : List (String × TField)) :
    Except JSError (List (String × TField))
  := match inner with
  | .obj kvs2 => deserializeInnerObj id (jsOrderKeys kvs2) acc
  | .arr xs =>
    match xs with
    | [] => .ok acc
    | _ =>
      .error (.protocolError ⟨TProtocolExceptionType.INVALID_DATA, "unsupported type (0)"⟩)
  | .str s =>
    if s = "" then .ok acc
    else .error (.protocolError ⟨TProtocolExceptionType.INVALID_DATA, "unsupported type (0)"⟩)
  | _ => .ok acc
termination_by (sizeOf inner, 0)
decreasing_by
  all_goals
    (first
      | decreasing_tactic
      | (simp_wf
         apply Prod.Lex.left
         rw [jsOrderKeys_sizeOf]
         omega))

/-- Iterate the inner wire-tag properties of one struct field: each key is
mapped through `typeOfString`, its value decoded with that tag, and the field
stored at the object key `String(parseInt(id))`. -/
def deserializeInnerObj (id : String) (kvs2 : List (String × JValue))
    (acc : List (String × TField)) : Except JSError (List (String × TField))
  := match kvs2 with
  | [] => .ok acc
  | (typeStr, fv) :: rest => do
    let fieldType ← protoLift (TJSONProtocol.typeOfString typeStr)
    let v ← deserializeValue fieldType fv
    deserializeInnerObj id rest (objInsert acc (parseIntToString (jsParseInt id)) (fieldType, v))
termination_by (sizeOf kvs2, 0)

end


/- Message kind codes from the `TMessageType` enum. -/
namespace TMessageType

abbrev CALL      : Nat := 1
abbrev REPLY     : Nat := 2
abbrev EXCEPTION : Nat := 3
abbrev ONEWAY    : Nat := 4

end TMessageType

/-- Keys of a string-keyed association list are pairwise distinct. -/
def distinctKeys (ks : List String) : Bool :=
  match ks with
  | [] => true
  | k :: rest => !(rest.contains k) && distinctKeys rest

/-- A struct field id is canonical when storing it at `String(parseInt(id))`
recovers exactly the same key — i.e. the id survives the decoder's
`fields[parseInt(id)]` round trip — and its magnitude stays below 2^53, so
`parseInt` loses no precision and `String()` of the result is its exact
decimal expansion in real JavaScript as well as in the model. -/
def canonKey (s : String) : Bool :=
  (parseIntToString (jsParseInt s) == s) &&
    (match jsParseInt s with
     | .fin n => decide (n.natAbs < 2 ^ 53)
     | _ => false)

/-- The serialized property name of a map entry's key (well-formed keys are
string scalars, so this is just the key's payload string). -/
def entryKeyString (e : TValue × TValue) : String :=
  match e.1 with
  | .base _ (some (.ps s)) => s
  | _ => ""

mutual

/-- Well-formed trees: the restriction of the Tagged Value data model under
which the JSON codec round trips.  Scalars carry a payload matching their tag
(no NaN); list/set/struct member tags are among the 11 wire tags and match the
members' own tags; map keys are present string scalars (declared key tag
STRING/UTF7) whose payload strings are pairwise distinct and already in
JavaScript enumeration order (so the decoder's `for..in` preserves the entry
order); struct field ids are distinct canonical keys below 2^53, also in
enumeration order. -/
def wfValue : TValue → Bool
  | .base t v =>
    if t == TType.BOOL then
      match v with
      | none => true
      | some (.pb _) => true
      | some _ => false
    else if numericTag t then
      match v with
      | none => true
      | some (.pn (.int _)) => true
      | some _ => false
    else if stringTag t then
      match v with
      | none => true
      | some (.ps _) => true
      | some _ => false
    else false
  | .list it items => (TJSONProtocol.typeString it).isOk && wfItems it items
  | .map kt vt entries =>
    (kt == TType.STRING) && (TJSONProtocol.typeString vt).isOk &&
      wfEntries vt entries && distinctKeys (entries.map entryKeyString) &&
      jsOrderedKeys (entries.map entryKeyString)
  | .set it items => (TJSONProtocol.typeString it).isOk && wfItems it items
  | .struct fields =>
    wfFields fields && distinctKeys (fields.map (fun p => p.1)) &&
      jsOrderedKeys (fields.map (fun p => p.1))

/-- All items of a list/set conform to the declared item tag and are
themselves well-formed. -/
def wfItems (it : TType) (items : List TValue) : Bool :=
  match items with
  | [] => true
  | x :: rest => (x.valueType == it) && wfValue x && wfItems it rest

/-- All map entries have a present string-scalar key and a well-formed value
conforming to the declared value tag. -/
def wfEntries (vt : TType) (entries : List (TValue × TValue)) : Bool :=
  match entries with
  | [] => true
  | (k, v) :: rest =>
    (match k with
     | .base kt2 (some (.ps _)) => kt2 == TType.STRING
     | _ => false) &&
      (v.valueType == vt) && wfValue v && wfEntries vt rest

/-- All struct fields have a canonical id, a wire-encodable field tag, and a
well-formed value conforming to that tag. -/
def wfFields (fields : List (String × TField)) : Bool :=
  match fields with
  | [] => true
  | (id, f) :: rest =>
    canonKey id && (TJSONProtocol.typeString f.fieldType).isOk &&
      (f.value.valueType == f.fieldType) && wfValue f.value && wfFields rest

end

/- Supporting lemmas about the embedding. -/

theorem except_isOk_iff {ε α : Type} (e : Except ε α) : e.isOk = true ↔ ∃ a, e = .ok a := by
  cases e <;> simp [Except.isOk, Except.toBool]

theorem jsToString_str (s : String) : jsToString (.str s) = s := rfl

theorem hasKey_nil {α : Type} (k : String) : hasKey ([] : List (String × α)) k = false := rfl

theorem hasKey_append {α : Type} (a b : List (String × α)) (k : String) :
    hasKey (a ++ b) k = (hasKey a k || hasKey b k) := by
  simp [hasKey, List.any_append]

theorem hasKey_single {α : Type} (s k : String) (v : α) :
    hasKey [(s, v)] k = (s == k) := by
  simp [hasKey]

theorem objInsert_fresh {α : Type} (kvs : List (String × α)) (k : String) (v : α)
    (h : hasKey kvs k = false) : objInsert kvs k v = kvs ++ [(k, v)] := by
  simp [objInsert, h]

theorem numericTag_cases (t : TType) (h : numericTag t = true) :
    t = 3 ∨ t = 4 ∨ t = 6 ∨ t = 8 ∨ t = 10 := by
  simp [numericTag] at h
  tauto

theorem stringTag_cases (t : TType) (h : stringTag t = true) :
    t = 11 ∨ t = 16 ∨ t = 17 := by
  simp [stringTag] at h
  tauto

theorem typeString_typeOfString (t : TType) (s : String)
    (h : TJSONProtocol.typeString t = .ok s) :
    TJSONProtocol.typeOfString s = .ok t := by
  unfold TJSONProtocol.typeString at h
  split_ifs at h with h1 h2 h3 h4 h5 h6 h7 h8 h9 h10 h11 <;>
    (first
      | (cases h; subst_vars; rfl)
      | cases h)

/-- Faithfulness of `deserializeKey`: it coincides with `deserializeValue` on
every string input, so using it for the decoder's property-name decodes is
exactly the source's `this.deserializeValue(keyType, key)` call. -/
theorem deserializeKey_spec (t : TType) (s : String) :
    deserializeValue t (.str s) = deserializeKey t s := by
  rw [deserializeValue]
  unfold deserializeKey
  split_ifs <;>
    simp_all [deserializeBoolCase, deserializeNumCase, deserializeStrCase,
      deserializeListCase, deserializeMapCase, deserializeSetCase, deserializeStructCase,
      isNullish]

theorem deserializeValue_boolTag (v : JValue) :
    deserializeValue TType.BOOL v = deserializeBoolCase TType.BOOL v := by
  rw [deserializeValue]
  rfl

theorem deserializeValue_numTag (t : TType) (v : JValue) (h : numericTag t = true) :
    deserializeValue t v = deserializeNumCase t v := by
  rcases numericTag_cases t h with h1 | h1 | h1 | h1 | h1 <;> subst h1 <;>
    (rw [deserializeValue]; rfl)

theorem deserializeValue_strTag (t : TType) (v : JValue) (h : stringTag t = true) :
    deserializeValue t v = deserializeStrCase t v := by
  rcases stringTag_cases t h with h1 | h1 | h1 <;> subst h1 <;>
    (rw [deserializeValue]; rfl)

theorem deserializeValue_listTag (v : JValue) :
    deserializeValue TType.LIST v = deserializeListCase v := by
  rw [deserializeValue]
  rfl

theorem deserializeValue_mapTag (v : JValue) :
    deserializeValue TType.MAP v = deserializeMapCase v := by
  rw [deserializeValue]
  rfl

theorem deserializeValue_setTag (v : JValue) :
    deserializeValue TType.SET v = deserializeSetCase v := by
  rw [deserializeValue]
  rfl

theorem deserializeValue_structTag (v : JValue) :
    deserializeValue TType.STRUCT v = deserializeStructCase v := by
  rw [deserializeValue]
  rfl

theorem deserializeListCase_cons (tagJ sizeJ : JValue) (rest : List JValue) :
    deserializeListCase (.arr (tagJ :: sizeJ :: rest)) = (do
      let itemType ← protoLift (TJSONProtocol.typeOfStringJ tagJ)
      let items ← deserializeItems itemType rest
      if jsLooseEqNum sizeJ (items.length : Int) then
        Except.ok (.list itemType items)
      else
        Except.error (.protocolError ⟨TProtocolExceptionType.INVALID_DATA,
          "list size mismatch: " ++ toString items.length ++ " != " ++ jsToString sizeJ⟩)) := by
  have hg : (!truthy (.arr (tagJ :: sizeJ :: rest)) ||
      jsLtNum (jsLength (.arr (tagJ :: sizeJ :: rest))) 2) = false := by
    simp [truthy, jsLength, jsLtNum]
    omega
  rw [deserializeListCase, hg]
  simp

theorem deserializeSetCase_cons (tagJ sizeJ : JValue) (rest : List JValue) :
    deserializeSetCase (.arr (tagJ :: sizeJ :: rest)) = (do
      let itemType ← protoLift (TJSONProtocol.typeOfStringJ tagJ)
      let items ← deserializeItems itemType rest
      if jsLooseEqNum sizeJ (items.length : Int) then
        Except.ok (.set itemType items)
      else
        Except.error (.protocolError ⟨TProtocolExceptionType.INVALID_DATA,
          "set size mismatch: " ++ toString items.length ++ " != " ++ jsToString sizeJ⟩)) := by
  have hg : (!truthy (.arr (tagJ :: sizeJ :: rest)) ||
      jsLtNum (jsLength (.arr (tagJ :: sizeJ :: rest))) 2) = false := by
    simp [truthy, jsLength, jsLtNum]
    omega
  rw [deserializeSetCase, hg]
  simp

theorem deserializeMapCase_arr (keyJ valJ sizeJ dataJ : JValue) :
    deserializeMapCase (.arr [keyJ, valJ, sizeJ, dataJ]) = (do
      let keyType ← protoLift (TJSONProtocol.typeOfStringJ keyJ)
      let itemType ← protoLift (TJSONProtocol.typeOfStringJ valJ)
      let items ← deserializeMapData keyType itemType dataJ
      if jsLooseEqNum sizeJ (items.length : Int) then
        Except.ok (.map keyType itemType items)
      else
        Except.error (.protocolError ⟨TProtocolExceptionType.INVALID_DATA,
          "map size mismatch: " ++ toString items.length ++ " != " ++ jsToString sizeJ⟩)) := by
  have hg : (!truthy (.arr [keyJ, valJ, sizeJ, dataJ]) ||
      !(jsLooseEqNum (jsLength (.arr [keyJ, valJ, sizeJ, dataJ])) 4)) = false := by
    simp [truthy, jsLength, jsLooseEqNum]
  rw [deserializeMapCase, hg]
  simp

theorem deserializeStructCase_obj (kvs : List (String × JValue)) :
    deserializeStructCase (.obj kvs) = (do
      let fields ← deserializeFieldsObj (jsOrderKeys kvs) []
      Except.ok (.struct fields)) := by
  rw [deserializeStructCase]
  simp [truthy]

theorem exceptBindOk {e a b : Type} (x : a) (f : a → Except e b) :
    (Except.ok x : Except e a) >>= f = f x := rfl

theorem exceptBindErr {e a b : Type} (err : e) (f : a → Except e b) :
    (Except.error err : Except e a) >>= f = .error err := rfl

theorem serializeStringScalar (s : String) :
    serializeValue (.base TType.STRING (some (.ps s))) = .ok (.str s) := by
  rw [serializeValue.eq_def]
  rfl

theorem deserializeKey_string (s : String) :
    deserializeKey TType.STRING s = .ok (.base TType.STRING (some (.ps s))) := by
  unfold deserializeKey
  rfl

theorem deserializeMapData_obj (kt vt : TType) (kvs : List (String × JValue)) :
    deserializeMapData kt vt (.obj kvs) = deserializeEntriesObj kt vt (jsOrderKeys kvs) := by
  rw [deserializeMapData.eq_def]

/-- None of the 11 wire tag strings is an array-index property key, so a
struct field's inner one-property object is already in enumeration order. -/
theorem typeString_nonIndexKey (t : TType) (s : String)
    (h : TJSONProtocol.typeString t = .ok s) : arrayIndexKey s = none := by
  unfold TJSONProtocol.typeString at h
  split_ifs at h <;> (first | (cases h; rfl) | cases h)

/-- Field serialization keeps each field's id, in order. -/
theorem serializeFieldResults_keys : ∀ fields : List (String × TField),
    (serializeFieldResults fields).map Prod.fst = fields.map Prod.fst
  | [] => rfl
  | (id, f) :: rest => by
    rw [serializeFieldResults]
    simp [serializeFieldResults_keys rest]

mutual

/-- Serializing a well-formed value succeeds and deserializing the result at
the value's own type tag recovers the value. -/
theorem roundTripValue : ∀ (v : TValue), wfValue v = true →
    ∃ j, serializeValue v = .ok j ∧ deserializeValue v.valueType j = .ok v
  | .base t p, h => by
    simp only [wfValue.eq_def] at h
    split_ifs at h with hb hn hs
    · simp only [beq_iff_eq] at hb
      subst hb
      cases p with
      | none =>
        refine ⟨.null, ?_, ?_⟩
        · rw [serializeValue.eq_def]
          simp
        · simp only [TValue.valueType]
          rw [deserializeValue_boolTag]
          simp [deserializeBoolCase, isNullish]
      | some pp =>
        cases pp with
        | pb b =>
          refine ⟨.num (.int (if b then 1 else 0)), ?_, ?_⟩
          · rw [serializeValue.eq_def]
            simp
          · simp only [TValue.valueType]
            rw [deserializeValue_boolTag]
            cases b <;> simp [deserializeBoolCase, isNullish, truthy]
        | pn n => simp at h
        | ps s => simp at h
    · have hbne : t ≠ TType.BOOL := by
        intro hcon
        subst hcon
        simp at hb
      cases p with
      | none =>
        refine ⟨.null, ?_, ?_⟩
        · rw [serializeValue.eq_def]
          simp [hbne, hn]
        · simp only [TValue.valueType]
          rw [deserializeValue_numTag t _ hn]
          simp [deserializeNumCase, isNullish]
      | some pp =>
        cases pp with
        | pn nn =>
          cases nn with
          | nan => simp at h
          | int n =>
            refine ⟨.num (.int n), ?_, ?_⟩
            · rw [serializeValue.eq_def]
              simp [hbne, hn]
            · simp only [TValue.valueType]
              rw [deserializeValue_numTag t _ hn]
              simp [deserializeNumCase, isNullish]
        | pb b => simp at h
        | ps s => simp at h
    · have hbne : t ≠ TType.BOOL := by
        intro hcon
        subst hcon
        simp at hb
      have hnne : ¬(numericTag t = true) := by
        simpa using hn
      cases p with
      | none =>
        refine ⟨.null, ?_, ?_⟩
        · rw [serializeValue.eq_def]
          simp [hbne, hnne, hs]
        · simp only [TValue.valueType]
          rw [deserializeValue_strTag t _ hs]
          simp [deserializeStrCase, isNullish]
      | some pp =>
        cases pp with
        | ps s =>
          refine ⟨.str s, ?_, ?_⟩
          · rw [serializeValue.eq_def]
            simp [hbne, hnne, hs]
          · simp only [TValue.valueType]
            rw [deserializeValue_strTag t _ hs]
            simp [deserializeStrCase, isNullish]
        | pb b => simp at h
        | pn n => simp at h
  | .list it items, h => by
    rw [wfValue] at h
    simp only [Bool.and_eq_true] at h
    obtain ⟨hok, hitems⟩ := h
    obtain ⟨tagS, htag⟩ := (except_isOk_iff _).mp hok
    obtain ⟨js, hser, hlen, hdes⟩ := roundTripItems it items hitems
    refine ⟨.arr (.str tagS :: .num (.int (items.length : Int)) :: js), ?_, ?_⟩
    · rw [serializeValue]
      rw [htag]
      simp [protoLift, hser, exceptBindOk]
    · simp only [TValue.valueType]
      rw [deserializeValue_listTag, deserializeListCase_cons]
      have hinv := typeString_typeOfString it tagS htag
      simp [TJSONProtocol.typeOfStringJ, hinv, protoLift, hdes, jsLooseEqNum, exceptBindOk]
  | .map kt vt entries, h => by
    rw [wfValue] at h
    simp only [Bool.and_eq_true] at h
    obtain ⟨⟨⟨⟨hkt, hvt⟩, hents⟩, hdist⟩, hord⟩ := h
    simp only [beq_iff_eq] at hkt
    subst hkt
    obtain ⟨vtS, hvtS⟩ := (except_isOk_iff _).mp hvt
    obtain ⟨kvs, hser, hkeys, hdes⟩ :=
      roundTripEntries vt entries [] hents hdist (fun e _ => rfl)
    have hordkvs : jsOrderedKeys (kvs.map Prod.fst) = true := by
      rw [hkeys]
      exact hord
    refine ⟨.arr [.str "str", .str vtS, .num (.int (entries.length : Int)), .obj kvs], ?_, ?_⟩
    · rw [serializeValue]
      rw [hser]
      simp only [List.nil_append]
      have hstr : TJSONProtocol.typeString TType.STRING = .ok "str" := rfl
      simp [protoLift, hstr, hvtS, exceptBindOk]
    · simp only [TValue.valueType]
      rw [deserializeValue_mapTag, deserializeMapCase_arr]
      have hinv := typeString_typeOfString vt vtS hvtS
      have hstrinv : TJSONProtocol.typeOfString "str" = .ok TType.STRING := rfl
      simp [TJSONProtocol.typeOfStringJ, hinv, hstrinv, protoLift, deserializeMapData_obj,
        jsOrderKeys_fixed kvs hordkvs, hdes, jsLooseEqNum, exceptBindOk]
  | .set it items, h => by
    rw [wfValue] at h
    simp only [Bool.and_eq_true] at h
    obtain ⟨hok, hitems⟩ := h
    obtain ⟨tagS, htag⟩ := (except_isOk_iff _).mp hok
    obtain ⟨js, hser, hlen, hdes⟩ := roundTripItems it items hitems
    refine ⟨.arr (.str tagS :: .num (.int (items.length : Int)) :: js), ?_, ?_⟩
    · rw [serializeValue]
      rw [htag]
      simp [protoLift, hser, exceptBindOk]
    · simp only [TValue.valueType]
      rw [deserializeValue_setTag, deserializeSetCase_cons]
      have hinv := typeString_typeOfString it tagS htag
      simp [TJSONProtocol.typeOfStringJ, hinv, protoLift, hdes, jsLooseEqNum, exceptBindOk]
  | .struct fields, h => by
    rw [wfValue] at h
    simp only [Bool.and_eq_true] at h
    obtain ⟨⟨hf, hdist⟩, hord⟩ := h
    obtain ⟨kvs, hser, hkeys, hdes⟩ := roundTripFields fields [] hf hdist (fun p _ => rfl)
    have hordSFR : jsOrderedKeys ((serializeFieldResults fields).map Prod.fst) = true := by
      rw [serializeFieldResults_keys]
      exact hord
    have hordkvs : jsOrderedKeys (kvs.map Prod.fst) = true := by
      rw [hkeys]
      exact hord
    refine ⟨.obj kvs, ?_, ?_⟩
    · rw [serializeValue]
      rw [jsOrderKeys_fixed _ hordSFR, hser]
      simp [exceptBindOk]
    · simp only [TValue.valueType]
      rw [deserializeValue_structTag, deserializeStructCase_obj]
      rw [jsOrderKeys_fixed _ hordkvs]
      have hd := hdes [] (fun p _ => rfl)
      simp [hd, exceptBindOk]
termination_by v => sizeOf v

/-- Round trip for the item list of a list/set: serialization succeeds,
preserves the count, and deserializing with the declared item tag recovers
the items. -/
theorem roundTripItems : ∀ (it : TType) (items : List TValue), wfItems it items = true →
    ∃ js, serializeItems items = .ok js ∧ js.length = items.length ∧
      deserializeItems it js = .ok items
  | it, [], _ => by
    refine ⟨[], rfl, rfl, ?_⟩
    rw [deserializeItems]
  | it, x :: rest, h => by
    rw [wfItems] at h
    simp only [Bool.and_eq_true, beq_iff_eq] at h
    obtain ⟨⟨hvt, hwf⟩, hrest⟩ := h
    obtain ⟨jx, hsx, hdx⟩ := roundTripValue x hwf
    obtain ⟨js, hs, hl, hd⟩ := roundTripItems it rest hrest
    refine ⟨jx :: js, ?_, ?_, ?_⟩
    · rw [serializeItems]
      simp [hsx, hs, exceptBindOk]
    · simp [hl]
    · rw [deserializeItems]
      rw [hvt] at hdx
      simp [hdx, hd, exceptBindOk]
termination_by it items => sizeOf items

/-- Round trip for map entries: serializing into the entries object appends
one property per entry (keys are fresh and distinct), the property names are
exactly the entry key strings in entry order, and decoding the properties with
key tag STRING and the declared value tag recovers the entries. -/
theorem roundTripEntries : ∀ (vt : TType) (entries : List (TValue × TValue))
    (acc : List (String × JValue)), wfEntries vt entries = true →
    distinctKeys (entries.map entryKeyString) = true →
    (∀ e ∈ entries, hasKey acc (entryKeyString e) = false) →
    ∃ kvs, serializeMapEntries entries acc = .ok (acc ++ kvs) ∧
      kvs.map Prod.fst = entries.map entryKeyString ∧
      deserializeEntriesObj TType.STRING vt kvs = .ok entries
  | vt, [], acc, _, _, _ => by
    refine ⟨[], ?_, rfl, ?_⟩
    · rw [serializeMapEntries]
      simp
    · rw [deserializeEntriesObj]
  | vt, (k, v) :: rest, acc, hwf, hdist, hfresh => by
    cases k with
    | base kt2 pk =>
      cases pk with
      | none => simp [wfEntries] at hwf
      | some pp =>
        cases pp with
        | ps s =>
          simp only [wfEntries, Bool.and_eq_true, beq_iff_eq] at hwf
          obtain ⟨⟨⟨hkt2, hvt⟩, hwfv⟩, hrest⟩ := hwf
          subst hkt2
          have hkeystr : entryKeyString (.base TType.STRING (some (.ps s)), v) = s := rfl
          rw [List.map_cons, hkeystr, distinctKeys] at hdist
          simp only [Bool.and_eq_true] at hdist
          obtain ⟨hnotin, hdrest⟩ := hdist
          have hsnotin : ∀ e' ∈ rest, entryKeyString e' ≠ s := by
            have hmem : s ∉ rest.map entryKeyString := by simpa using hnotin
            intro e' he' hcon
            exact hmem (hcon ▸ List.mem_map_of_mem entryKeyString he')
          obtain ⟨sv, hsv, hdv⟩ := roundTripValue v hwfv
          have hfhead : hasKey acc s = false := by
            have := hfresh _ (List.mem_cons_self _ _)
            simpa [hkeystr] using this
          have hfresh' : ∀ e' ∈ rest, hasKey (acc ++ [(s, sv)]) (entryKeyString e') = false := by
            intro e' he'
            rw [hasKey_append, hasKey_single]
            have h1 := hfresh e' (List.mem_cons_of_mem _ he')
            have h2 : (s == entryKeyString e') = false := by
              simpa using (hsnotin e' he').symm
            simp [h1, h2]
          obtain ⟨kvs', hser', hkeys', hdes'⟩ := roundTripEntries vt rest (acc ++ [(s, sv)])
            hrest hdrest hfresh'
          refine ⟨(s, sv) :: kvs', ?_, ?_, ?_⟩
          · rw [serializeMapEntries]
            rw [serializeStringScalar]
            simp only [exceptBindOk]
            rw [hsv]
            simp only [exceptBindOk, jsToString_str]
            rw [objInsert_fresh _ _ _ hfhead, hser']
            simp
          · rw [List.map_cons, hkeys', List.map_cons, hkeystr]
          · rw [deserializeEntriesObj]
            rw [deserializeKey_string]
            simp only [exceptBindOk]
            rw [hvt] at hdv
            rw [hdv]
            simp [hdes', exceptBindOk]
        | pb b => simp [wfEntries] at hwf
        | pn n => simp [wfEntries] at hwf
    | list it2 items2 => simp [wfEntries] at hwf
    | map kt3 vt3 items3 => simp [wfEntries] at hwf
    | set it2 items2 => simp [wfEntries] at hwf
    | struct fields2 => simp [wfEntries] at hwf
termination_by vt entries acc => sizeOf entries

/-- Round trip for struct fields: folding the per-field serialization results
appends one property per field (ids are fresh and distinct), the property
names are exactly the field ids in field order, and decoding appends exactly
the original fields to any accumulator whose keys avoid the field ids. -/
theorem roundTripFields : ∀ (fields : List (String × TField))
    (acc : List (String × JValue)), wfFields fields = true →
    distinctKeys (fields.map Prod.fst) = true →
    (∀ p ∈ fields, hasKey acc p.1 = false) →
    ∃ kvs, buildStructObj (serializeFieldResults fields) acc = .ok (acc ++ kvs) ∧
      kvs.map Prod.fst = fields.map Prod.fst ∧
      ∀ acc2 : List (String × TField), (∀ p ∈ fields, hasKey acc2 p.1 = false) →
        deserializeFieldsObj kvs acc2 = .ok (acc2 ++ fields)
  | [], acc, _, _, _ => by
    refine ⟨[], ?_, rfl, ?_⟩
    · simp [serializeFieldResults, buildStructObj]
    · intro acc2 _
      rw [deserializeFieldsObj]
      simp
  | (id, ft, fv) :: rest, acc, hwf, hdist, hfresh => by
    rw [wfFields] at hwf
    simp only [Bool.and_eq_true, beq_iff_eq] at hwf
    obtain ⟨⟨⟨⟨hcanon, hftOk⟩, hfvt⟩, hwfv⟩, hrest⟩ := hwf
    simp only [TField.fieldType, TField.value] at hftOk hfvt hwfv
    obtain ⟨tagS, htagS⟩ := (except_isOk_iff _).mp hftOk
    obtain ⟨sv, hsv, hdv⟩ := roundTripValue fv hwfv
    rw [List.map_cons, distinctKeys] at hdist
    simp only [Bool.and_eq_true] at hdist
    obtain ⟨hnotin, hdrest⟩ := hdist
    have hidnotin : ∀ p' ∈ rest, p'.1 ≠ id := by
      have hmem : id ∉ rest.map Prod.fst := by simpa using hnotin
      intro p' hp' hcon
      exact hmem (hcon ▸ List.mem_map_of_mem Prod.fst hp')
    have hfhead : hasKey acc id = false := hfresh _ (List.mem_cons_self _ _)
    have hfresh' : ∀ p' ∈ rest, hasKey (acc ++ [(id, JValue.obj [(tagS, sv)])]) p'.1 = false := by
      intro p' hp'
      rw [hasKey_append, hasKey_single]
      have h1 := hfresh p' (List.mem_cons_of_mem _ hp')
      have h2 : (id == p'.1) = false := by
        simpa using (hidnotin p' hp').symm
      simp [h1, h2]
    obtain ⟨kvs', hser', hkeys', hdes'⟩ := roundTripFields rest (acc ++ [(id, .obj [(tagS, sv)])])
      hrest hdrest hfresh'
    have hcanon' : parseIntToString (jsParseInt id) = id := by
      simp only [canonKey, Bool.and_eq_true, beq_iff_eq] at hcanon
      exact hcanon.1
    refine ⟨(id, .obj [(tagS, sv)]) :: kvs', ?_, ?_, ?_⟩
    · rw [serializeFieldResults]
      simp only [TField.fieldType, TField.value]
      rw [htagS]
      simp only [protoLift, exceptBindOk]
      rw [hsv]
      simp only [exceptBindOk]
      rw [buildStructObj]
      rw [objInsert_fresh _ _ _ hfhead, hser']
      simp
    · rw [List.map_cons, hkeys', List.map_cons]
    · intro acc2 hfr2
      rw [deserializeFieldsObj]
      rw [deserializeInner]
      rw [jsOrderKeys_single_nonIdx tagS sv (typeString_nonIndexKey ft tagS htagS)]
      rw [deserializeInnerObj]
      rw [typeString_typeOfString ft tagS htagS]
      simp only [protoLift, exceptBindOk]
      rw [hfvt] at hdv
      rw [hdv]
      simp only [exceptBindOk]
      rw [deserializeInnerObj]
      rw [hcanon']
      have hfr2head : hasKey acc2 id = false := hfr2 _ (List.mem_cons_self _ _)
      rw [objInsert_fresh _ _ _ hfr2head]
      simp only [exceptBindOk]
      have hfr2' : ∀ p' ∈ rest, hasKey (acc2 ++ [(id, ((ft, fv) : TField))]) p'.1 = false := by
        intro p' hp'
        rw [hasKey_append, hasKey_single]
        have h1 := hfr2 p' (List.mem_cons_of_mem _ hp')
        have h2 : (id == p'.1) = false := by
          simpa using (hidnotin p' hp').symm
        simp [h1, h2]
      rw [hdes' _ hfr2']
      simp
termination_by fields acc => sizeOf fields

end

/- ===== C5 ===== -/

/-- C5: for each of the 11 type tags of the wire-tag table (BOOL, I08/BYTE,
I16, I32, I64, DOUBLE, STRING, LIST, MAP, SET, STRUCT), decoding the wire tag
string produced by encoding the tag gives back the tag:
`typeOfString (typeString t) = t`. -/
theorem wire_tag_table_bijection :
    ((TJSONProtocol.typeString TType.BOOL).bind TJSONProtocol.typeOfString = .ok TType.BOOL) ∧
    ((TJSONProtocol.typeString TType.BYTE).bind TJSONProtocol.typeOfString = .ok TType.BYTE) ∧
    ((TJSONProtocol.typeString TType.I08).bind TJSONProtocol.typeOfString = .ok TType.I08) ∧
    ((TJSONProtocol.typeString TType.I16).bind TJSONProtocol.typeOfString = .ok TType.I16) ∧
    ((TJSONProtocol.typeString TType.I32).bind TJSONProtocol.typeOfString = .ok TType.I32) ∧
    ((TJSONProtocol.typeString TType.I64).bind TJSONProtocol.typeOfString = .ok TType.I64) ∧
    ((TJSONProtocol.typeString TType.DOUBLE).bind TJSONProtocol.typeOfString = .ok TType.DOUBLE) ∧
    ((TJSONProtocol.typeString TType.STRING).bind TJSONProtocol.typeOfString = .ok TType.STRING) ∧
    ((TJSONProtocol.typeString TType.LIST).bind TJSONProtocol.typeOfString = .ok TType.LIST) ∧
    ((TJSONProtocol.typeString TType.MAP).bind TJSONProtocol.typeOfString = .ok TType.MAP) ∧
    ((TJSONProtocol.typeString TType.SET).bind TJSONProtocol.typeOfString = .ok TType.SET) ∧
    ((TJSONProtocol.typeString TType.STRUCT).bind TJSONProtocol.typeOfString = .ok TType.STRUCT) :=
  ⟨rfl, rfl, rfl, rfl, rfl, rfl, rfl, rfl, rfl, rfl, rfl, rfl⟩

/- ===== C7 ===== -/

/-- C7: `getField(id, type)` returns the stored field exactly when a field is
present at `String(id)` and its field type equals the expected tag; in every
other case it returns the absent value (it never raises, its result type has
no error case). -/
theorem getField_lookup_semantics (fields : List (String × TField)) (id : Int)
    (fieldType : TType) :
    (∀ f, getField fields id fieldType = some f ↔
      objLookup fields (toString id) = some f ∧ f.fieldType = fieldType) ∧
    (getField fields id fieldType = none ↔
      ∀ f, objLookup fields (toString id) = some f → f.fieldType ≠ fieldType) := by
  constructor
  · intro f
    unfold getField
    cases h : objLookup fields (toString id) with
    | none => simp
    | some g =>
      show (if TField.fieldType g = fieldType then some g else none) = some f ↔
        some g = some f ∧ TField.fieldType f = fieldType
      split_ifs with hft
      · constructor
        · intro hgf
          cases hgf
          exact ⟨rfl, hft⟩
        · intro hp
          exact hp.1
      · constructor
        · intro hco
          cases hco
        · intro hp
          cases hp.1
          exact absurd hp.2 hft
  · unfold getField
    cases h : objLookup fields (toString id) with
    | none =>
      constructor
      · intro _ f hf
        cases hf
      · intro _
        rfl
    | some g =>
      show (if TField.fieldType g = fieldType then some g else none) = none ↔
        ∀ f, some g = some f → TField.fieldType f ≠ fieldType
      split_ifs with hft
      · constructor
        · intro hco
          cases hco
        · intro hall
          exact absurd hft (hall g rfl)
      · constructor
        · intro _ f hf
          cases hf
          exact hft
        · intro _
          rfl

/- ===== C2 ===== -/

/-- C2 counterexample: deserializing with the BOOL tag does not type-check its
input — the number 1 is accepted and coerced to the boolean true instead of
raising an INVALID_DATA protocol failure. -/
theorem bool_deserialize_coerces_number :
    deserializeValue TType.BOOL (.num (.int 1)) = .ok (.base TType.BOOL (some (.pb true))) := by
  rw [deserializeValue_boolTag]
  rfl

/-- C2 amended: for a non-absent input, the numeric tags require a JSON number
and the string tags require a JSON string, anything else raising INVALID_DATA;
but the BOOL tag never type-checks: it coerces any non-absent input to a
boolean by JavaScript truthiness. -/
theorem scalar_deserialize_typecheck_amended :
    (∀ (t : TType) (v : JValue), numericTag t = true → isNullish v = false →
      (∀ n, v ≠ .num n) →
      deserializeValue t v = .error (.protocolError
        ⟨TProtocolExceptionType.INVALID_DATA, "number expected: " ++ jsonStringify v⟩)) ∧
    (∀ (t : TType) (v : JValue), stringTag t = true → isNullish v = false →
      (∀ s, v ≠ .str s) →
      deserializeValue t v = .error (.protocolError
        ⟨TProtocolExceptionType.INVALID_DATA, "string expected: " ++ jsonStringify v⟩)) ∧
    (∀ v : JValue, isNullish v = false →
      deserializeValue TType.BOOL v = .ok (.base TType.BOOL (some (.pb (truthy v))))) := by
  refine ⟨?_, ?_, ?_⟩
  · intro t v hn hnull hnotnum
    rw [deserializeValue_numTag t v hn]
    unfold deserializeNumCase
    rw [hnull]
    cases v with
    | num n => exact absurd rfl (hnotnum n)
    | _ => simp
  · intro t v hs hnull hnotstr
    rw [deserializeValue_strTag t v hs]
    unfold deserializeStrCase
    rw [hnull]
    cases v with
    | str s => exact absurd rfl (hnotstr s)
    | _ => simp
  · intro v hnull
    rw [deserializeValue_boolTag]
    unfold deserializeBoolCase
    rw [hnull]
    simp

/-- C2 witness. -/
theorem scalar_deserialize_typecheck_witness :
    deserializeValue TType.I32 (.str "x") = .error (.protocolError
      ⟨TProtocolExceptionType.INVALID_DATA, "number expected: " ++ jsonStringify (.str "x")⟩) ∧
    deserializeValue TType.STRING (.bool true) = .error (.protocolError
      ⟨TProtocolExceptionType.INVALID_DATA, "string expected: " ++ jsonStringify (.bool true)⟩) ∧
    deserializeValue TType.BOOL (.num (.int 5)) =
      .ok (.base TType.BOOL (some (.pb (truthy (.num (.int 5)))))) :=
  ⟨scalar_deserialize_typecheck_amended.1 TType.I32 (.str "x") (by decide) (by decide)
      (fun n h => by cases h),
   scalar_deserialize_typecheck_amended.2.1 TType.STRING (.bool true) (by decide) (by decide)
      (fun s h => by cases h),
   scalar_deserialize_typecheck_amended.2.2 (.num (.int 5)) (by decide)⟩

/- ===== C3 ===== -/

/-- C3 counterexample: UTF8 is a distinct code (16) from STRING (11), and
`typeString` raises INVALID_DATA on it instead of mapping it to "str": a list
declared with item tag UTF8 cannot be serialized at all. -/
theorem typeString_rejects_utf8 :
    TJSONProtocol.typeString TType.UTF8 =
      .error ⟨TProtocolExceptionType.INVALID_DATA, "unsupported type (16)"⟩ ∧
    serializeValue (.list TType.UTF8 []) =
      .error (.protocolError ⟨TProtocolExceptionType.INVALID_DATA, "unsupported type (16)"⟩) ∧
    TType.UTF8 ≠ TType.STRING :=
  ⟨rfl, by rw [serializeValue]; rfl, by decide⟩

/-- C3 amended: STRING and UTF7 are the same numeric code and map to the wire
tag "str", and a scalar tagged with any of the four string aliases serializes
a string payload successfully; but UTF8 (16) and UTF16 (17) are distinct codes
for which `typeString` raises INVALID_DATA, so they are rejected wherever a
wire tag string must be emitted. -/
theorem string_alias_encoding_amended :
    TType.UTF7 = TType.STRING ∧
    TJSONProtocol.typeString TType.STRING = .ok "str" ∧
    (∀ s, serializeValue (.base TType.STRING (some (.ps s))) = .ok (.str s)) ∧
    (∀ s, serializeValue (.base TType.UTF8 (some (.ps s))) = .ok (.str s)) ∧
    (∀ s, serializeValue (.base TType.UTF16 (some (.ps s))) = .ok (.str s)) ∧
    TJSONProtocol.typeString TType.UTF8 =
      .error ⟨TProtocolExceptionType.INVALID_DATA, "unsupported type (16)"⟩ ∧
    TJSONProtocol.typeString TType.UTF16 =
      .error ⟨TProtocolExceptionType.INVALID_DATA, "unsupported type (17)"⟩ :=
  ⟨rfl, rfl,
   fun s => by rw [serializeValue.eq_def]; rfl,
   fun s => by rw [serializeValue.eq_def]; rfl,
   fun s => by rw [serializeValue.eq_def]; rfl,
   rfl, rfl⟩

/- ===== C4 ===== -/

/-- C4 counterexample: map entry property names are decoded with the declared
key tag, not as string-typed values: with declared key tag I32 the property
name "7" raises INVALID_DATA instead of decoding to a string-typed value. -/
theorem map_key_decode_not_string_typed :
    deserializeValue TType.MAP
        (.arr [.str "i32", .str "str", .num (.int 1), .obj [("7", .str "x")]]) =
      .error (.protocolError
        ⟨TProtocolExceptionType.INVALID_DATA, "number expected: \"7\""⟩) := by
  have h7 : jsOrderKeys [("7", JValue.str "x")] = [("7", JValue.str "x")] := rfl
  simp [deserializeValue_mapTag, deserializeMapCase_arr, TJSONProtocol.typeOfStringJ,
    TJSONProtocol.typeOfString, protoLift, deserializeMapData_obj, h7, deserializeEntriesObj,
    deserializeKey, numericTag, stringTag, jsonStringify, jsonEscape, exceptBindOk, exceptBindErr]
  decide

/-- C4 amended: when deserializing a map, the entries object's property names
are enumerated in JavaScript own-property order and each is decoded as the
entry key by applying the decoder for the DECLARED key tag to the property
name as a string input (so non-string key tags type-check the string and
generally fail), and each property value is decoded with the declared value
tag. -/
theorem map_key_decode_uses_declared_tag :
    (∀ kt vt kvs,
      deserializeMapData kt vt (.obj kvs) = deserializeEntriesObj kt vt (jsOrderKeys kvs)) ∧
    (∀ kt vt k jv rest, deserializeEntriesObj kt vt ((k, jv) :: rest) = (do
      let kk ← deserializeKey kt k
      let vv ← deserializeValue vt jv
      let items ← deserializeEntriesObj kt vt rest
      Except.ok ((kk, vv) :: items))) ∧
    (∀ t s, deserializeValue t (.str s) = deserializeKey t s) :=
  ⟨deserializeMapData_obj,
   fun kt vt k jv rest => by rw [deserializeEntriesObj],
   deserializeKey_spec⟩

/- ===== C6 ===== -/

/-- C6: for each concrete variant — scalar with present payload (BOOL, numeric
or string tagged), list, map, set, struct — exactly one of the seven typed
accessors succeeds, returning the held data, and the other six raise a
protocol failure of kind INVALID_DATA. -/
theorem accessor_exclusivity :
    (∀ p : Prim,
      booleanValue (.base TType.BOOL (some p)) = .ok (some p) ∧
      numberValue (.base TType.BOOL (some p)) =
        .error ⟨TProtocolExceptionType.INVALID_DATA, "expected number value"⟩ ∧
      stringValue (.base TType.BOOL (some p)) =
        .error ⟨TProtocolExceptionType.INVALID_DATA, "expected string value"⟩ ∧
      listValue (.base TType.BOOL (some p)) =
        .error ⟨TProtocolExceptionType.INVALID_DATA, "expected list value"⟩ ∧
      mapValue (.base TType.BOOL (some p)) =
        .error ⟨TProtocolExceptionType.INVALID_DATA, "expected map value"⟩ ∧
      setValue (.base TType.BOOL (some p)) =
        .error ⟨TProtocolExceptionType.INVALID_DATA, "expected set value"⟩ ∧
      structValue (.base TType.BOOL (some p)) =
        .error ⟨TProtocolExceptionType.INVALID_DATA, "expected struct value"⟩) ∧
    (∀ (t : TType) (p : Prim), numericTag t = true →
      numberValue (.base t (some p)) = .ok (some p) ∧
      booleanValue (.base t (some p)) =
        .error ⟨TProtocolExceptionType.INVALID_DATA, "expected boolean value"⟩ ∧
      stringValue (.base t (some p)) =
        .error ⟨TProtocolExceptionType.INVALID_DATA, "expected string value"⟩ ∧
      listValue (.base t (some p)) =
        .error ⟨TProtocolExceptionType.INVALID_DATA, "expected list value"⟩ ∧
      mapValue (.base t (some p)) =
        .error ⟨TProtocolExceptionType.INVALID_DATA, "expected map value"⟩ ∧
      setValue (.base t (some p)) =
        .error ⟨TProtocolExceptionType.INVALID_DATA, "expected set value"⟩ ∧
      structValue (.base t (some p)) =
        .error ⟨TProtocolExceptionType.INVALID_DATA, "expected struct value"⟩) ∧
    (∀ (t : TType) (p : Prim), stringTag t = true →
      stringValue (.base t (some p)) = .ok (some p) ∧
      booleanValue (.base t (some p)) =
        .error ⟨TProtocolExceptionType.INVALID_DATA, "expected boolean value"⟩ ∧
      numberValue (.base t (some p)) =
        .error ⟨TProtocolExceptionType.INVALID_DATA, "expected number value"⟩ ∧
      listValue (.base t (some p)) =
        .error ⟨TProtocolExceptionType.INVALID_DATA, "expected list value"⟩ ∧
      mapValue (.base t (some p)) =
        .error ⟨TProtocolExceptionType.INVALID_DATA, "expected map value"⟩ ∧
      setValue (.base t (some p)) =
        .error ⟨TProtocolExceptionType.INVALID_DATA, "expected set value"⟩ ∧
      structValue (.base t (some p)) =
        .error ⟨TProtocolExceptionType.INVALID_DATA, "expected struct value"⟩) ∧
    (∀ (it : TType) (items : List TValue),
      listValue (.list it items) = .ok (.list it items) ∧
      booleanValue (.list it items) =
        .error ⟨TProtocolExceptionType.INVALID_DATA, "expected boolean value"⟩ ∧
      numberValue (.list it items) =
        .error ⟨TProtocolExceptionType.INVALID_DATA, "expected number value"⟩ ∧
      stringValue (.list it items) =
        .error ⟨TProtocolExceptionType.INVALID_DATA, "expected string value"⟩ ∧
      mapValue (.list it items) =
        .error ⟨TProtocolExceptionType.INVALID_DATA, "expected map value"⟩ ∧
      setValue (.list it items) =
        .error ⟨TProtocolExceptionType.INVALID_DATA, "expected set value"⟩ ∧
      structValue (.list it items) =
        .error ⟨TProtocolExceptionType.INVALID_DATA, "expected struct value"⟩) ∧
    (∀ (kt vt : TType) (entries : List (TValue × TValue)),
      mapValue (.map kt vt entries) = .ok (.map kt vt entries) ∧
      booleanValue (.map kt vt entries) =
        .error ⟨TProtocolExceptionType.INVALID_DATA, "expected boolean value"⟩ ∧
      numberValue (.map kt vt entries) =
        .error ⟨TProtocolExceptionType.INVALID_DATA, "expected number value"⟩ ∧
      stringValue (.map kt vt entries) =
        .error ⟨TProtocolExceptionType.INVALID_DATA, "expected string value"⟩ ∧
      listValue (.map kt vt entries) =
        .error ⟨TProtocolExceptionType.INVALID_DATA, "expected list value"⟩ ∧
      setValue (.map kt vt entries) =
        .error ⟨TProtocolExceptionType.INVALID_DATA, "expected set value"⟩ ∧
      structValue (.map kt vt entries) =
        .error ⟨TProtocolExceptionType.INVALID_DATA, "expected struct value"⟩) ∧
    (∀ (it : TType) (items : List TValue),
      setValue (.set it items) = .ok (.set it items) ∧
      booleanValue (.set it items) =
        .error ⟨TProtocolExceptionType.INVALID_DATA, "expected boolean value"⟩ ∧
      numberValue (.set it items) =
        .error ⟨TProtocolExceptionType.INVALID_DATA, "expected number value"⟩ ∧
      stringValue (.set it items) =
        .error ⟨TProtocolExceptionType.INVALID_DATA, "expected string value"⟩ ∧
      listValue (.set it items) =
        .error ⟨TProtocolExceptionType.INVALID_DATA, "expected list value"⟩ ∧
      mapValue (.set it items) =
        .error ⟨TProtocolExceptionType.INVALID_DATA, "expected map value"⟩ ∧
      structValue (.set it items) =
        .error ⟨TProtocolExceptionType.INVALID_DATA, "expected struct value"⟩) ∧
    (∀ fields : List (String × TField),
      structValue (.struct fields) = .ok (.struct fields) ∧
      booleanValue (.struct fields) =
        .error ⟨TProtocolExceptionType.INVALID_DATA, "expected boolean value"⟩ ∧
      numberValue (.struct fields) =
        .error ⟨TProtocolExceptionType.INVALID_DATA, "expected number value"⟩ ∧
      stringValue (.struct fields) =
        .error ⟨TProtocolExceptionType.INVALID_DATA, "expected string value"⟩ ∧
      listValue (.struct fields) =
        .error ⟨TProtocolExceptionType.INVALID_DATA, "expected list value"⟩ ∧
      mapValue (.struct fields) =
        .error ⟨TProtocolExceptionType.INVALID_DATA, "expected map value"⟩ ∧
      setValue (.struct fields) =
        .error ⟨TProtocolExceptionType.INVALID_DATA, "expected set value"⟩) := by
  refine ⟨?_, ?_, ?_, ?_, ?_, ?_, ?_⟩
  · intro p
    exact ⟨rfl, rfl, rfl, rfl, rfl, rfl, rfl⟩
  · intro t p hn
    rcases numericTag_cases t hn with h | h | h | h | h <;> subst h <;>
      exact ⟨rfl, rfl, rfl, rfl, rfl, rfl, rfl⟩
  · intro t p hs
    rcases stringTag_cases t hs with h | h | h <;> subst h <;>
      exact ⟨rfl, rfl, rfl, rfl, rfl, rfl, rfl⟩
  · intro it items
    exact ⟨rfl, rfl, rfl, rfl, rfl, rfl, rfl⟩
  · intro kt vt entries
    exact ⟨rfl, rfl, rfl, rfl, rfl, rfl, rfl⟩
  · intro it items
    exact ⟨rfl, rfl, rfl, rfl, rfl, rfl, rfl⟩
  · intro fields
    exact ⟨rfl, rfl, rfl, rfl, rfl, rfl, rfl⟩

/-- C6 witness. -/
theorem accessor_exclusivity_witness :
    numberValue (.base TType.I32 (some (.pn (.int 7)))) = .ok (some (.pn (.int 7))) ∧
    booleanValue (.base TType.I32 (some (.pn (.int 7)))) =
      .error ⟨TProtocolExceptionType.INVALID_DATA, "expected boolean value"⟩ ∧
    stringValue (.base TType.STRING (some (.ps "a"))) = .ok (some (.ps "a")) ∧
    mapValue (.base TType.STRING (some (.ps "a"))) =
      .error ⟨TProtocolExceptionType.INVALID_DATA, "expected map value"⟩ :=
  ⟨(accessor_exclusivity.2.1 TType.I32 (.pn (.int 7)) (by decide)).1,
   (accessor_exclusivity.2.1 TType.I32 (.pn (.int 7)) (by decide)).2.1,
   (accessor_exclusivity.2.2.1 TType.STRING (.ps "a") (by decide)).1,
   (accessor_exclusivity.2.2.1 TType.STRING (.ps "a") (by decide)).2.2.2.2.1⟩

/- ===== C10 ===== -/

/-- C10: for a scalar whose optional payload is absent, the accessor matching
its own type tag does not raise: it returns the absent payload itself, while
the six mismatched accessors still raise INVALID_DATA. -/
theorem absent_scalar_accessor :
    (booleanValue (.base TType.BOOL none) = .ok none ∧
      numberValue (.base TType.BOOL none) =
        .error ⟨TProtocolExceptionType.INVALID_DATA, "expected number value"⟩ ∧
      stringValue (.base TType.BOOL none) =
        .error ⟨TProtocolExceptionType.INVALID_DATA, "expected string value"⟩ ∧
      listValue (.base TType.BOOL none) =
        .error ⟨TProtocolExceptionType.INVALID_DATA, "expected list value"⟩ ∧
      mapValue (.base TType.BOOL none) =
        .error ⟨TProtocolExceptionType.INVALID_DATA, "expected map value"⟩ ∧
      setValue (.base TType.BOOL none) =
        .error ⟨TProtocolExceptionType.INVALID_DATA, "expected set value"⟩ ∧
      structValue (.base TType.BOOL none) =
        .error ⟨TProtocolExceptionType.INVALID_DATA, "expected struct value"⟩) ∧
    (∀ t : TType, numericTag t = true →
      numberValue (.base t none) = .ok none ∧
      booleanValue (.base t none) =
        .error ⟨TProtocolExceptionType.INVALID_DATA, "expected boolean value"⟩ ∧
      stringValue (.base t none) =
        .error ⟨TProtocolExceptionType.INVALID_DATA, "expected string value"⟩ ∧
      listValue (.base t none) =
        .error ⟨TProtocolExceptionType.INVALID_DATA, "expected list value"⟩ ∧
      mapValue (.base t none) =
        .error ⟨TProtocolExceptionType.INVALID_DATA, "expected map value"⟩ ∧
      setValue (.base t none) =
        .error ⟨TProtocolExceptionType.INVALID_DATA, "expected set value"⟩ ∧
      structValue (.base t none) =
        .error ⟨TProtocolExceptionType.INVALID_DATA, "expected struct value"⟩) ∧
    (∀ t : TType, stringTag t = true →
      stringValue (.base t none) = .ok none ∧
      booleanValue (.base t none) =
        .error ⟨TProtocolExceptionType.INVALID_DATA, "expected boolean value"⟩ ∧
      numberValue (.base t none) =
        .error ⟨TProtocolExceptionType.INVALID_DATA, "expected number value"⟩ ∧
      listValue (.base t none) =
        .error ⟨TProtocolExceptionType.INVALID_DATA, "expected list value"⟩ ∧
      mapValue (.base t none) =
        .error ⟨TProtocolExceptionType.INVALID_DATA, "expected map value"⟩ ∧
      setValue (.base t none) =
        .error ⟨TProtocolExceptionType.INVALID_DATA, "expected set value"⟩ ∧
      structValue (.base t none) =
        .error ⟨TProtocolExceptionType.INVALID_DATA, "expected struct value"⟩) := by
  refine ⟨⟨rfl, rfl, rfl, rfl, rfl, rfl, rfl⟩, ?_, ?_⟩
  · intro t hn
    rcases numericTag_cases t hn with h | h | h | h | h <;> subst h <;>
      exact ⟨rfl, rfl, rfl, rfl, rfl, rfl, rfl⟩
  · intro t hs
    rcases stringTag_cases t hs with h | h | h <;> subst h <;>
      exact ⟨rfl, rfl, rfl, rfl, rfl, rfl, rfl⟩

/-- C10 witness. -/
theorem absent_scalar_accessor_witness :
    numberValue (.base TType.DOUBLE none) = .ok none ∧
    stringValue (.base TType.DOUBLE none) =
      .error ⟨TProtocolExceptionType.INVALID_DATA, "expected string value"⟩ ∧
    stringValue (.base TType.UTF16 none) = .ok none :=
  ⟨(absent_scalar_accessor.2.1 TType.DOUBLE (by decide)).1,
   (absent_scalar_accessor.2.1 TType.DOUBLE (by decide)).2.2.1,
   (absent_scalar_accessor.2.2 TType.UTF16 (by decide)).1⟩

/- ===== C8 ===== -/

/-- C1 counterexample: a map whose declared key tag is I32 serializes (keys
become JSON property names), but deserializing the result at the tree's own
tag (MAP) raises INVALID_DATA while decoding the property name "1" with the
numeric key tag — the round trip does not return the original tree. -/
theorem roundtrip_fails_on_numeric_map_key :
    serializeValue (.map TType.I32 TType.I32
        [(.base TType.I32 (some (.pn (.int 1))), .base TType.I32 (some (.pn (.int 2))))]) =
      .ok (.arr [.str "i32", .str "i32", .num (.int 1), .obj [("1", .num (.int 2))]]) ∧
    deserializeValue
        (TValue.valueType (.map TType.I32 TType.I32
          [(.base TType.I32 (some (.pn (.int 1))), .base TType.I32 (some (.pn (.int 2))))]))
        (.arr [.str "i32", .str "i32", .num (.int 1), .obj [("1", .num (.int 2))]]) =
      .error (.protocolError
        ⟨TProtocolExceptionType.INVALID_DATA, "number expected: \"1\""⟩) := by
  constructor
  · rfl
  · simp only [TValue.valueType]
    have h1 : jsOrderKeys [("1", JValue.num (JSNum.int 2))] = [("1", JValue.num (JSNum.int 2))] :=
      rfl
    simp [deserializeValue_mapTag, deserializeMapCase_arr, TJSONProtocol.typeOfStringJ,
      TJSONProtocol.typeOfString, protoLift, deserializeMapData_obj, h1, deserializeEntriesObj,
      deserializeKey, numericTag, stringTag, jsonStringify, jsonEscape, exceptBindOk,
      exceptBindErr]
    decide

/-- C1 amended: for every well-formed Tagged Value tree — scalar payloads
matching their tags with no NaN, container member tags among the 11 wire tags
and matching the members' own tags, map keys present, distinct, string-tagged
scalars listed in JavaScript enumeration order, struct field ids distinct
canonical decimal integer keys below 2^53 also listed in enumeration order —
serialization succeeds and deserializing the result with the tree's own type
tag yields the original tree. -/
theorem wellformed_roundtrip (v : TValue) (h : wfValue v = true) :
    ∃ j, serializeValue v = .ok j ∧ deserializeValue (TValue.valueType v) j = .ok v :=
  roundTripValue v h

/-- A nested well-formed example: a struct holding a bool, a list of i32, a
set of doubles, a string→i64 map and a nested struct with an absent string
field. -/
def roundtripExample : TValue :=
  .struct
    [("1", TType.BOOL, .base TType.BOOL (some (.pb false))),
     ("2", TType.LIST, .list TType.I32
        [.base TType.I32 (some (.pn (.int 3))), .base TType.I32 (some (.pn (.int (-4))))]),
     ("3", TType.SET, .set TType.DOUBLE [.base TType.DOUBLE (some (.pn (.int 2)))]),
     ("4", TType.MAP, .map TType.STRING TType.I64
        [(.base TType.STRING (some (.ps "a")), .base TType.I64 (some (.pn (.int 10)))),
         (.base TType.STRING (some (.ps "b")), .base TType.I64 none)]),
     ("5", TType.STRUCT, .struct [("7", TType.STRING, .base TType.STRING none)])]

/-- C1 witness. -/
theorem wellformed_roundtrip_witness :
    wfValue roundtripExample = true ∧
    ∃ j, serializeValue roundtripExample = .ok j ∧
      deserializeValue (TValue.valueType roundtripExample) j = .ok roundtripExample :=
  ⟨by decide, wellformed_roundtrip roundtripExample (by decide)⟩
